import Mathlib

/-!
Verification of the reservations engine of this repository.

The definitions below are a shallow embedding of the business-logic modules
`helpers/reservationHelpers.py` and `helpers/availabilityHelpers.py` together
with the data model of `models.py`.  Python strings are modelled as lists of
characters, `datetime.time` values as hour/minute pairs, the SQLAlchemy
session as an explicit list of stored reservations, and a commit that may
fail as an explicit boolean oracle.  Raised-and-caught exceptions become
`Option`/`Except` values.
-/

namespace Reservations

/-- Python strings are modelled as lists of characters. -/
abbrev PyStr := List Char

/-- Embeds `datetime.time` at the minute resolution used by the engine. -/
structure PyTime where
  hour : Nat
  minute : Nat
deriving DecidableEq, Repr

/-- Comparison of `datetime.time` values: lexicographic on (hour, minute). -/
def PyTime.lt (a b : PyTime) : Bool :=
  a.hour < b.hour || (a.hour == b.hour && a.minute < b.minute)

/-- Decimal digit characters, as produced by Python decimal formatting. -/
def digitChar : Nat → Char
  | 0 => '0'
  | 1 => '1'
  | 2 => '2'
  | 3 => '3'
  | 4 => '4'
  | 5 => '5'
  | 6 => '6'
  | 7 => '7'
  | 8 => '8'
  | 9 => '9'
  | _ => '?'

/-- Value of a decimal digit character, if the character is a digit. -/
def digitVal? (c : Char) : Option Nat :=
  if c.isDigit then some (c.toNat - 48) else none

/-- Decimal value of a digit run, `none` when a non-digit occurs. -/
def digitsVal? : List Char → Nat → Option Nat
  | [], acc => some acc
  | c :: cs, acc =>
    match digitVal? c with
    | none => none
    | some d => digitsVal? cs (acc * 10 + d)

/-- Embeds Python `int(s)` on the textual forms the engine feeds it: an
optional single sign followed by a nonempty run of decimal digits.  `none`
models a raised `ValueError`. -/
def pyInt? : PyStr → Option Int
  | [] => none
  | '+' :: cs => if cs.isEmpty then none else (digitsVal? cs 0).map Int.ofNat
  | '-' :: cs => if cs.isEmpty then none else (digitsVal? cs 0).map fun n => -(n : Int)
  | cs => (digitsVal? cs 0).map Int.ofNat

/-- Embeds Python `s.split(':')`. -/
def splitOnColon : PyStr → List PyStr
  | [] => [[]]
  | c :: cs =>
    if c = ':' then [] :: splitOnColon cs
    else
      match splitOnColon cs with
      | [] => [[c]]
      | r :: rs => (c :: r) :: rs

/-- Decimal digits of `n`, most significant first; the first argument is
recursion fuel (`n + 1` always suffices). -/
def natToDigitsAux : Nat → Nat → List Char → List Char
  | 0, _, acc => acc
  | fuel + 1, n, acc =>
    if n < 10 then digitChar n :: acc
    else natToDigitsAux fuel (n / 10) (digitChar (n % 10) :: acc)

/-- Decimal digits of `n`, most significant first. -/
def natToDigits (n : Nat) : List Char :=
  natToDigitsAux (n + 1) n []

/-- Embeds Python `f"{n:02d}"`: decimal rendering zero-padded to width two
(for a negative value the sign already fills the width). -/
def format02 (n : Int) : PyStr :=
  if n < 0 then '-' :: natToDigits n.natAbs
  else
    match natToDigits n.toNat with
    | [d] => ['0', d]
    | ds => ds

/-- Embeds Python `f"{h:02d}:{m:02d}"`. -/
def fmtHHMM (h m : Int) : PyStr :=
  format02 h ++ ':' :: format02 m

/-- Zero-padded `HH:MM` rendering of a time value. -/
def PyTime.render (t : PyTime) : PyStr :=
  fmtHHMM (t.hour : Int) (t.minute : Int)

/-- Byte-wise lexicographic string comparison: the order the SQL layer uses
when `is_time_available_for_reservation` compares stored time strings. -/
def strLt : PyStr → PyStr → Bool
  | [], [] => false
  | [], _ :: _ => true
  | _ :: _, [] => false
  | c :: cs, d :: ds => c.toNat < d.toNat || (c == d && strLt cs ds)

/-- The messages produced by the engine.  Each constructor stands for one of
the f-string messages of the Python code and carries exactly the data that
message interpolates. -/
inductive Msg where
  | timeEmpty
  | invalidHours (h : Int)
  | invalidMinutes (m : Int)
  | invalidTimeFormat (s : PyStr)
  | restaurantNotFound
  | notAcceptingReservations
  | eaterNotFound (eater_id : Nat)
  | attendeeNotFound (attendee_id : Nat)
  | invalidDateFormat
  | hoursNotAvailable
  | notOpenAt (s : PyStr)
  | eaterConflict (restaurantName : Option PyStr) (restaurant_id : Nat)
      (startS endS : PyStr)
  | attendeeConflict (attendeeName : PyStr) (inner : Msg)
  | noTablesForPartySize
  | noTablesAtTime
  | createSuccess
  | persistenceError
  | reservationNotFound
  | softDeleted
  | hardDeleted
  | deleteError
deriving DecidableEq, Repr

/-- Embeds `parse_time_string` (reservationHelpers.py).  `Except.error m`
models the `(False, m, None)` returns, `Except.ok t` the `(True, "", t)`
return.  A `ValueError` raised by `int(...)` or by the `time(...)`
constructor in the colon-free branch is caught and reported as the
invalid-format message, exactly as in the `except` clause. -/
def parse_time_string (time_str : PyStr) : Except Msg PyTime :=
  if time_str.isEmpty then .error .timeEmpty
  else if !time_str.contains ':' then
    match pyInt? time_str with
    | none => .error (.invalidTimeFormat time_str)
    | some h =>
      if 0 ≤ h ∧ h ≤ 23 then .ok ⟨h.toNat, 0⟩
      else .error (.invalidTimeFormat time_str)
  else
    let time_parts := splitOnColon time_str
    match pyInt? (time_parts.headD []) with
    | none => .error (.invalidTimeFormat time_str)
    | some hours =>
      match (if time_parts.length > 1 then pyInt? (time_parts.getD 1 []) else some 0) with
      | none => .error (.invalidTimeFormat time_str)
      | some minutes =>
        if hours < 0 ∨ 23 < hours then .error (.invalidHours hours)
        else if minutes < 0 ∨ 59 < minutes then .error (.invalidMinutes minutes)
        else .ok ⟨hours.toNat, minutes.toNat⟩

/-- The `try` body of `calculate_end_time`; `none` models a raised
`ValueError` (the `IndexError` of `time_parts[0]` cannot occur because
`split` always returns a nonempty list). -/
def calculate_end_time_core (start_time : PyStr) (duration_hours : Int) : Option PyStr :=
  let time_parts := splitOnColon start_time
  match pyInt? (time_parts.headD []) with
  | none => none
  | some hour =>
    match (if time_parts.length > 1 then pyInt? (time_parts.getD 1 []) else some 0) with
    | none => none
    | some minute => some (fmtHHMM ((hour + duration_hours) % 24) minute)

/-- Embeds `calculate_end_time`; `now` is the wall-clock time read in the
exception fallback branch. -/
def calculate_end_time (now : PyTime) (start_time : PyStr) (duration_hours : Int) : PyStr :=
  match calculate_end_time_core start_time duration_hours with
  | some s => s
  | none => fmtHHMM (((now.hour : Int) + duration_hours) % 24) (now.minute : Int)

/-! ## Data model (`models.py`)

Rows are records; relationships become explicit id references.  Dates are
opaque day identifiers (`Nat`): the engine only ever compares them for
equality, so the `YYYY-MM-DD` syntax is irrelevant and `strptime` is
modelled at the call sites by an `Option Nat` input (`none` = a string the
library fails to parse). -/

/-- Embeds the `Eater` model (the fields the engine reads). -/
structure Eater where
  id : Nat
  name : PyStr
deriving DecidableEq, Repr

/-- Embeds the `RestaurantHours` model. -/
structure RestaurantHours where
  opening_time : PyTime
  closing_time : PyTime
deriving DecidableEq, Repr

/-- Embeds the `Restaurant` model (the fields the engine reads); `hours` is
the one-to-one `RestaurantHours` relationship. -/
structure Restaurant where
  id : Nat
  name : PyStr
  accepts_reservations : Bool
  hours : Option RestaurantHours
deriving DecidableEq, Repr

/-- Embeds the `Table` model. -/
structure Table where
  id : Nat
  restaurant_id : Nat
  capacity : Nat
deriving DecidableEq, Repr

/-- Embeds the `Reservation` model; `attendees` is the
`reservation_attendees` association, as the list of attendee eater ids. -/
structure Reservation where
  id : Nat
  eater_id : Nat
  restaurant_id : Nat
  table_id : Nat
  reservation_date : Nat
  reservation_start_time : PyStr
  reservation_end_time : PyStr
  party_size : Nat
  is_active : Bool
  attendees : List Nat
deriving DecidableEq, Repr

/-- The static entities of the database: eaters, restaurants, tables, and
the dietary tables.  `mappings` holds the rows of
`restriction_endorsement_mappings` as (restriction_id, endorsement_id)
pairs; `endorsements` the rows of `restaurant_endorsements` as
(restaurant_id, endorsement_id) pairs.  None of the engine operations
mutate these. -/
structure Env where
  eaters : List Eater
  restaurants : List Restaurant
  tables : List Table
  mappings : List (Nat × Nat)
  endorsements : List (Nat × Nat)
deriving DecidableEq, Repr

/-- The mutable part of the database: the reservations store and the next
primary key. -/
structure DB where
  reservations : List Reservation
  next_id : Nat
deriving DecidableEq, Repr

/-- Embeds `Restaurant.query.get`. -/
def getRestaurant (env : Env) (restaurant_id : Nat) : Option Restaurant :=
  env.restaurants.find? fun r => r.id == restaurant_id

/-- Embeds `Eater.query.get`. -/
def getEater (env : Env) (eater_id : Nat) : Option Eater :=
  env.eaters.find? fun e => e.id == eater_id

/-- The display name used in the conflict message of
`check_eater_availability`: the restaurant's name when the lookup
succeeds, otherwise (`none`) the `"Restaurant ID {id}"` fallback. -/
def restaurantDisplayName (env : Env) (restaurant_id : Nat) : Option PyStr :=
  (getRestaurant env restaurant_id).map fun r => r.name

/-- Insertion step for ordering tables by ascending capacity. -/
def insertByCapacity (t : Table) : List Table → List Table
  | [] => [t]
  | u :: us => if t.capacity ≤ u.capacity then t :: u :: us else u :: insertByCapacity t us

/-- Embeds `order_by(Table.capacity)` (ascending; ties in an unspecified
order, as in SQL). -/
def sortByCapacity : List Table → List Table
  | [] => []
  | t :: ts => insertByCapacity t (sortByCapacity ts)

/-- Embeds Python `min(tables, key=lambda t: t.capacity)`: the first
element whose capacity is minimal. -/
def minByCapacity (t : Table) : List Table → Table
  | [] => t
  | u :: us => if u.capacity < t.capacity then minByCapacity u us else minByCapacity t us

/-- Embeds `list(set(...))` on reservation objects: duplicates (by primary
key, which is what object identity means under the session's identity map)
are dropped, keeping the first occurrence. -/
def dedupById (seen : List Nat) : List Reservation → List Reservation
  | [] => []
  | r :: rs =>
    if seen.contains r.id then dedupById seen rs
    else r :: dedupById (r.id :: seen) rs

/-! ## Time windows -/

/-- The overlap test both checkers use, literally
`req_start < res_end and req_end > res_start`: windows `A = (start, end)`
and `B` overlap when `A.1 < B.2 && B.1 < A.2`. -/
def overlapB (A B : PyTime × PyTime) : Bool :=
  PyTime.lt A.1 B.2 && PyTime.lt B.1 A.2

/-- The parsed `[start, end)` window stored in a reservation, when both of
its stored time strings parse. -/
def resWindow? (r : Reservation) : Option (PyTime × PyTime) :=
  match parse_time_string r.reservation_start_time,
        parse_time_string r.reservation_end_time with
  | .ok a, .ok b => some (a, b)
  | _, _ => none

/-- The overlap loop body shared by `check_eater_availability` and
`check_table_availability`: a stored reservation conflicts with the request
window when its times parse and the windows overlap; unparsable stored
times are skipped. -/
def reqOverlapB (req_start req_end : PyTime) (r : Reservation) : Bool :=
  match resWindow? r with
  | some w => overlapB (req_start, req_end) w
  | none => false

/-! ## Validation helpers (`reservationHelpers.py`) -/

/-- Embeds `validate_restaurant`. -/
def validate_restaurant (env : Env) (restaurant_id : Nat) : Except Msg Restaurant :=
  match getRestaurant env restaurant_id with
  | none => .error .restaurantNotFound
  | some restaurant =>
    if !restaurant.accepts_reservations then .error .notAcceptingReservations
    else .ok restaurant

/-- Embeds `validate_host`. -/
def validate_host (env : Env) (eater_id : Nat) : Except Msg Eater :=
  match getEater env eater_id with
  | none => .error (.eaterNotFound eater_id)
  | some eater => .ok eater

/-- Embeds `validate_attendees`: resolves each id in order, failing on the
first missing one. -/
def validate_attendees (env : Env) : List Nat → Except Msg (List Eater)
  | [] => .ok []
  | attendee_id :: rest =>
    match getEater env attendee_id with
    | none => .error (.attendeeNotFound attendee_id)
    | some attendee =>
      match validate_attendees env rest with
      | .error m => .error m
      | .ok attendees => .ok (attendee :: attendees)

/-- Embeds `validate_reservation_time`.  `reservation_date` is the
`strptime` result for the date argument (`none` = `ValueError`, reported
as the invalid-date message). -/
def validate_reservation_time (restaurant : Restaurant) (reservation_date : Option Nat)
    (reservation_start_time : PyStr) : Except Msg Nat :=
  match reservation_date with
  | none => .error .invalidDateFormat
  | some date_obj =>
    match restaurant.hours with
    | none => .error .hoursNotAvailable
    | some restaurant_hours =>
      match parse_time_string reservation_start_time with
      | .error m => .error m
      | .ok reservation_time_obj =>
        if PyTime.lt reservation_time_obj restaurant_hours.opening_time
            || PyTime.lt restaurant_hours.closing_time reservation_time_obj then
          .error (.notOpenAt reservation_start_time)
        else .ok date_obj

/-- The conflict scan of `check_eater_availability`: first reservation in
the list whose times parse and whose window overlaps the request aborts
with the conflict message; unparsable stored times are skipped. -/
def scanEaterConflicts (env : Env) (req_start req_end : PyTime) :
    List Reservation → Except Msg Unit
  | [] => .ok ()
  | r :: rs =>
    match resWindow? r with
    | some w =>
      if overlapB (req_start, req_end) w then
        .error (.eaterConflict (restaurantDisplayName env r.restaurant_id)
          r.restaurant_id r.reservation_start_time r.reservation_end_time)
      else scanEaterConflicts env req_start req_end rs
    | none => scanEaterConflicts env req_start req_end rs

/-- Embeds `check_eater_availability`: collects the eater's active
reservations on the date, as host and as attendee, deduplicates, and scans
for an overlap with the requested window. -/
def check_eater_availability (env : Env) (db : DB) (eater_id : Nat) (date_obj : Nat)
    (start_time end_time : PyStr) : Except Msg Unit :=
  match parse_time_string start_time with
  | .error m => .error m
  | .ok req_start =>
    match parse_time_string end_time with
    | .error m => .error m
    | .ok req_end =>
      let host_reservations := db.reservations.filter fun r =>
        r.eater_id == eater_id && r.reservation_date == date_obj && r.is_active
      let attending_reservations := db.reservations.filter fun r =>
        r.attendees.contains eater_id && r.reservation_date == date_obj && r.is_active
      let all_eater_reservations :=
        dedupById [] (host_reservations ++ attending_reservations)
      scanEaterConflicts env req_start req_end all_eater_reservations

/-! ## Business logic (`reservationHelpers.py`) -/

/-- Embeds `check_table_availability`.  `end_time?` is the optional
`end_time` argument; `none` or an empty string (both falsy) make the
function compute a default two-hour end time. -/
def check_table_availability (env : Env) (db : DB) (now : PyTime) (restaurant_id : Nat)
    (party_size : Nat) (date_obj : Nat) (start_time : PyStr) (end_time? : Option PyStr) :
    Except Msg Table :=
  let end_time :=
    match end_time? with
    | none => calculate_end_time now start_time 2
    | some e => if e.isEmpty then calculate_end_time now start_time 2 else e
  let suitable_tables := sortByCapacity (env.tables.filter fun t =>
    t.restaurant_id == restaurant_id && party_size ≤ t.capacity)
  if suitable_tables.isEmpty then .error .noTablesForPartySize
  else
    let day_reservations := db.reservations.filter fun r =>
      r.restaurant_id == restaurant_id && r.reservation_date == date_obj && r.is_active
    match parse_time_string start_time with
    | .error m => .error m
    | .ok req_start =>
      match parse_time_string end_time with
      | .error m => .error m
      | .ok req_end =>
        let conflicting_reservations :=
          day_reservations.filter (reqOverlapB req_start req_end)
        let reserved_table_ids := conflicting_reservations.map fun r => r.table_id
        let available_tables :=
          suitable_tables.filter fun t => !reserved_table_ids.contains t.id
        match available_tables with
        | [] => .error .noTablesAtTime
        | t :: ts => .ok (minByCapacity t ts)

/-- Embeds `find_available_table`. -/
def find_available_table (env : Env) (db : DB) (now : PyTime) (restaurant_id : Nat)
    (party_size : Nat) (date_obj : Nat) (reservation_start_time : PyStr) :
    Except Msg Table :=
  let end_time := calculate_end_time now reservation_start_time 2
  check_table_availability env db now restaurant_id party_size date_obj
    reservation_start_time (some end_time)

/-- The party-size computation of `create_reservation` step 4:
`len(attendees) + (0 if host in attendees else 1) + guests_count`, where
`host in attendees` compares session objects, i.e. primary keys. -/
def party_size_of (host : Eater) (attendees : List Eater) (guests_count : Nat) : Nat :=
  (attendees.length + (if attendees.contains host then 0 else 1)) + guests_count

/-- Embeds `create_reservation_object`: the host is appended to the
attendee association first, then every resolved attendee whose id differs
from the host's (duplicates in the input list are kept, as in the Python
loop). -/
def create_reservation_object (new_id : Nat) (eater_id restaurant_id table_id : Nat)
    (date_obj : Nat) (reservation_start_time reservation_end_time : PyStr)
    (party_size : Nat) (host : Eater) (attendees : List Eater) : Reservation :=
  { id := new_id
    eater_id := eater_id
    restaurant_id := restaurant_id
    table_id := table_id
    reservation_date := date_obj
    reservation_start_time := reservation_start_time
    reservation_end_time := reservation_end_time
    party_size := party_size
    is_active := true
    attendees := host.id :: (attendees.filter fun a => a.id != host.id).map fun a => a.id }

/-- Step 8 of `create_reservation`: check every attendee other than the
host for an existing booking, wrapping a failure with the attendee's
name. -/
def check_attendees_availability (env : Env) (db : DB) (eater_id : Nat) (date_obj : Nat)
    (start_time end_time : PyStr) : List Eater → Except Msg Unit
  | [] => .ok ()
  | attendee :: rest =>
    if attendee.id == eater_id then
      check_attendees_availability env db eater_id date_obj start_time end_time rest
    else
      match check_eater_availability env db attendee.id date_obj start_time end_time with
      | .error m => .error (.attendeeConflict attendee.name m)
      | .ok _ =>
        check_attendees_availability env db eater_id date_obj start_time end_time rest

/-- Embeds `create_reservation`.  `now` is the wall clock (only relevant to
the unreachable fallback of `calculate_end_time`); `commitOk` is the
persistence oracle: `false` makes the final `db.session.commit()` raise, in
which case the session is rolled back and the store is unchanged.  The
result pairs the Python return triple with the store after the call. -/
def create_reservation (env : Env) (now : PyTime) (commitOk : Bool)
    (eater_id restaurant_id : Nat) (reservation_date : Option Nat)
    (reservation_start_time : PyStr) (attendee_ids : Option (List Nat))
    (guests_count : Nat) (db : DB) : (Bool × Msg × Option Reservation) × DB :=
  match validate_restaurant env restaurant_id with
  | .error m => ((false, m, none), db)
  | .ok restaurant =>
    match validate_host env eater_id with
    | .error m => ((false, m, none), db)
    | .ok host =>
      match validate_attendees env (attendee_ids.getD []) with
      | .error m => ((false, m, none), db)
      | .ok attendees =>
        let party_size := party_size_of host attendees guests_count
        match validate_reservation_time restaurant reservation_date reservation_start_time with
        | .error m => ((false, m, none), db)
        | .ok date_obj =>
          let end_time := calculate_end_time now reservation_start_time 2
          match check_eater_availability env db eater_id date_obj
              reservation_start_time end_time with
          | .error m => ((false, m, none), db)
          | .ok _ =>
            match check_attendees_availability env db eater_id date_obj
                reservation_start_time end_time attendees with
            | .error m => ((false, m, none), db)
            | .ok _ =>
              match find_available_table env db now restaurant_id party_size date_obj
                  reservation_start_time with
              | .error m => ((false, m, none), db)
              | .ok available_table =>
                let new_reservation := create_reservation_object db.next_id eater_id
                  restaurant_id available_table.id date_obj reservation_start_time
                  end_time party_size host attendees
                if commitOk then
                  ((true, .createSuccess, some new_reservation),
                    ⟨db.reservations ++ [new_reservation], db.next_id + 1⟩)
                else ((false, .persistenceError, none), db)

/-- Embeds `delete_reservation`.  `commitOk` is the persistence oracle: a
failing commit rolls the session back, leaving the store unchanged. -/
def delete_reservation (commitOk : Bool) (reservation_id : Nat) (soft_delete : Bool)
    (db : DB) : (Bool × Msg) × DB :=
  match db.reservations.find? (fun r => r.id == reservation_id) with
  | none => ((false, .reservationNotFound), db)
  | some _ =>
    if !commitOk then ((false, .deleteError), db)
    else if soft_delete then
      ((true, .softDeleted),
        ⟨db.reservations.map fun r =>
          if r.id == reservation_id then { r with is_active := false } else r,
          db.next_id⟩)
    else
      ((true, .hardDeleted),
        ⟨db.reservations.filter fun r => r.id != reservation_id, db.next_id⟩)

/-! ## Availability search (`availabilityHelpers.py`) -/

/-- The open-at-instant test of the availability queries:
`opening_time <= res_time` and `closing_time >= res_time`; a restaurant
with no hours row is excluded by the inner join. -/
def openAtB (r : Restaurant) (res_time : PyTime) : Bool :=
  match r.hours with
  | none => false
  | some h => !PyTime.lt res_time h.opening_time && !PyTime.lt h.closing_time res_time

/-- Embeds `get_potential_restaurants`.  `res_time?` is the `strptime`
result for the time argument (`none` = both formats fail, which returns the
empty list).  With a non-empty restriction set the endorsement rows that
map to any requested restriction are collected (one per mapping row, so
with multiplicity), and a restaurant qualifies when it appears in the
grouped count subquery (so has at least one matching endorsement row) with
a count at least the length of that list. -/
def get_potential_restaurants (env : Env) (res_time? : Option PyTime)
    (restrictions : List Nat) : List Restaurant :=
  match res_time? with
  | none => []
  | some res_time =>
    if restrictions.isEmpty then
      env.restaurants.filter fun r => r.accepts_reservations && openAtB r res_time
    else
      let matching_endorsement_ids :=
        (env.mappings.filter fun p => restrictions.contains p.1).map fun p => p.2
      let qualifying := env.restaurants.filter fun r =>
        let endorsement_count := ((env.endorsements.filter fun q =>
          q.1 == r.id && matching_endorsement_ids.contains q.2).length)
        0 < endorsement_count && matching_endorsement_ids.length ≤ endorsement_count
      qualifying.filter fun r => r.accepts_reservations && openAtB r res_time

/-- Embeds `is_time_available_for_reservation`.  The conflict query
compares the stored time strings with the query strings at the SQL level,
i.e. lexicographically (`strLt`). -/
def is_time_available_for_reservation (env : Env) (db : DB) (restaurant : Restaurant)
    (date_obj : Nat) (start_time end_time : PyStr) (num_of_eaters : Nat) : Bool :=
  let suitable_tables := env.tables.filter fun t =>
    t.restaurant_id == restaurant.id && num_of_eaters ≤ t.capacity
  if suitable_tables.isEmpty then false
  else
    let suitable_table_ids := suitable_tables.map fun t => t.id
    let conflicting_reservations := db.reservations.filter fun r =>
      r.restaurant_id == restaurant.id && suitable_table_ids.contains r.table_id
        && r.reservation_date == date_obj
        && strLt start_time r.reservation_end_time
        && strLt r.reservation_start_time end_time
        && r.is_active
    let reserved_table_ids := conflicting_reservations.map fun r => r.table_id
    let available_tables := suitable_tables.filter fun t => !reserved_table_ids.contains t.id
    available_tables.length > 0

/-! ## Operation sequences and reachable stores -/

/-- One API call against the store: a `create_reservation` or a
`delete_reservation`, each with its persistence oracle. -/
inductive Op where
  | create (now : PyTime) (commitOk : Bool) (eater_id restaurant_id : Nat)
      (reservation_date : Option Nat) (start_time : PyStr)
      (attendee_ids : Option (List Nat)) (guests_count : Nat)
  | delete (commitOk : Bool) (reservation_id : Nat) (soft : Bool)

/-- The store after one API call. -/
def applyOp (env : Env) (db : DB) : Op → DB
  | .create now commitOk eater_id restaurant_id reservation_date start_time
      attendee_ids guests_count =>
    (create_reservation env now commitOk eater_id restaurant_id reservation_date
      start_time attendee_ids guests_count db).2
  | .delete commitOk reservation_id soft =>
    (delete_reservation commitOk reservation_id soft db).2

/-- The empty reservation store. -/
def emptyDB : DB := ⟨[], 0⟩

/-- The store after a sequence of API calls starting from the empty
store. -/
def runOps (env : Env) (ops : List Op) : DB :=
  ops.foldl (applyOp env) emptyDB

/-- A store is reachable when some sequence of create and delete calls
produces it from the empty store. -/
def Reachable (env : Env) (db : DB) : Prop :=
  ∃ ops, runOps env ops = db

/-- Well-formedness of the static data, guaranteed by the schema: table
primary keys are unique. -/
def EnvWF (env : Env) : Prop :=
  ∀ t1 ∈ env.tables, ∀ t2 ∈ env.tables, t1.id = t2.id → t1 = t2

/-! ## Derived notions used to state the specification properties -/

/-- A time value in the range `datetime.time` accepts. -/
def ValidTime (t : PyTime) : Prop :=
  t.hour < 24 ∧ t.minute < 60

/-- Whether eater `p` participates in reservation `r`, as host or as a
member of its attendee association. -/
def participatesB (p : Nat) (r : Reservation) : Bool :=
  r.eater_id == p || r.attendees.contains p

/-- Whether the stored windows of two reservations overlap: both parse and
satisfy the overlap predicate. -/
def resOverlapB (r1 r2 : Reservation) : Bool :=
  match resWindow? r1, resWindow? r2 with
  | some w1, some w2 => overlapB w1 w2
  | _, _ => false

/-- The message `m` is a conflict message naming reservation `r'`: the
`"You already have a reservation at ... from ... to ..."` message carrying
`r'`'s restaurant (by display name and id) and `r'`'s stored window,
possibly wrapped in the `"Attendee ...: "` prefix. -/
def conflictMsgNames (env : Env) (r' : Reservation) : Msg → Prop
  | .eaterConflict name restaurant_id startS endS =>
      name = restaurantDisplayName env r'.restaurant_id
        ∧ restaurant_id = r'.restaurant_id
        ∧ startS = r'.reservation_start_time ∧ endS = r'.reservation_end_time
  | .attendeeConflict _ inner => conflictMsgNames env r' inner
  | _ => False

/-- The store with one reservation row (and its attendee associations)
removed: the counterfactual state a hard delete would produce. -/
def eraseReservation (reservation_id : Nat) (db : DB) : DB :=
  ⟨db.reservations.filter fun r => r.id != reservation_id, db.next_id⟩

/-- Every reservation stored in `db` carries zero-padded `HH:MM` time
strings (the rendering of some valid time value). -/
def RenderedTimes (db : DB) : Prop :=
  ∀ r ∈ db.reservations, ∃ a b, ValidTime a ∧ ValidTime b
    ∧ r.reservation_start_time = a.render ∧ r.reservation_end_time = b.render

/-- Modelled from the spec's words for the restriction-matching claim: a
restaurant passes the restriction filter iff it holds at least as many
endorsements from the set of endorsements mapped to any requested
restriction as the size of that full set (and every restaurant passes when
the restriction set is empty). -/
def claimedRestrictionPass (env : Env) (restaurant_id : Nat) (restrictions : List Nat) : Bool :=
  if restrictions.isEmpty then true
  else
    let fullSet :=
      ((env.mappings.filter fun p => restrictions.contains p.1).map fun p => p.2).dedup
    fullSet.length ≤
      (fullSet.filter fun e => env.endorsements.contains (restaurant_id, e)).length

/-- The number of `(restriction, endorsement)` mapping rows whose
restriction is requested: the length, with multiplicity, of the matched
endorsement list the code builds. -/
def matchedPairCount (env : Env) (restrictions : List Nat) : Nat :=
  ((env.mappings.filter fun p => restrictions.contains p.1).map fun p => p.2).length

/-- The number of endorsement rows restaurant `restaurant_id` holds among
the matched endorsement list. -/
def heldMatchCount (env : Env) (restaurant_id : Nat) (restrictions : List Nat) : Nat :=
  (env.endorsements.filter fun q =>
    q.1 == restaurant_id
      && ((env.mappings.filter fun p => restrictions.contains p.1).map fun p => p.2).contains q.2).length

/-- The inductive invariant of the reservation store, preserved by every
create and delete call.  The last two fields are the two no-double-booking
properties; the others support them. -/
structure Inv (env : Env) (db : DB) : Prop where
  idBound : ∀ r ∈ db.reservations, r.id < db.next_id
  idUnique : ∀ r1 ∈ db.reservations, ∀ r2 ∈ db.reservations, r1.id = r2.id → r1 = r2
  parses : ∀ r ∈ db.reservations, (resWindow? r).isSome
  tableOwn : ∀ r ∈ db.reservations,
    ∃ t ∈ env.tables, t.id = r.table_id ∧ t.restaurant_id = r.restaurant_id
  noTable : ∀ r1 ∈ db.reservations, ∀ r2 ∈ db.reservations, r1.id ≠ r2.id →
    r1.is_active → r2.is_active → r1.table_id = r2.table_id →
    r1.reservation_date = r2.reservation_date → resOverlapB r1 r2 = false
  noPerson : ∀ r1 ∈ db.reservations, ∀ r2 ∈ db.reservations, r1.id ≠ r2.id →
    r1.is_active → r2.is_active → r1.reservation_date = r2.reservation_date →
    ∀ p, participatesB p r1 = true → participatesB p r2 = true →
    resOverlapB r1 r2 = false

/-- Table `t` is blocked for date `d` and the parsed request window
`[ts, te)`: some stored active reservation on that date is assigned to it
and (with parsable times) overlaps the window. -/
def tableBlocked (db : DB) (d : Nat) (ts te : PyTime) (t : Table) : Prop :=
  ∃ r ∈ db.reservations, r.reservation_date = d ∧ r.is_active = true
    ∧ reqOverlapB ts te r = true ∧ r.table_id = t.id

/-- The no-person-double-booking store property: no two distinct active
reservations on the same date in which one person participates (as host or
attendee) have overlapping stored windows. -/
def NoPersonDoubleBooking (db : DB) : Prop :=
  ∀ r1 ∈ db.reservations, ∀ r2 ∈ db.reservations, r1 ≠ r2 →
    r1.is_active = true → r2.is_active = true →
    r1.reservation_date = r2.reservation_date →
    ∀ p, participatesB p r1 = true → participatesB p r2 = true →
    resOverlapB r1 r2 = false

/-- The conflict-rejection property: a create request whose validation
steps 1–6 succeed and whose window overlaps an existing active reservation
of a request participant (the host or a listed attendee) fails, and its
message is a conflict message naming an existing overlapping active
reservation's restaurant and stored window. -/
def ConflictRejects (env : Env) (db : DB) : Prop :=
  ∀ (now : PyTime) (ok : Bool) (eid rid d : Nat) (start : PyStr)
    (ids : Option (List Nat)) (g : Nat) (restaurant : Restaurant) (ts te : PyTime),
    validate_restaurant env rid = .ok restaurant →
    (validate_host env eid).isOk = true →
    (validate_attendees env (ids.getD [])).isOk = true →
    validate_reservation_time restaurant (some d) start = .ok d →
    parse_time_string start = .ok ts →
    parse_time_string (calculate_end_time now start 2) = .ok te →
    (∃ r ∈ db.reservations, r.is_active = true ∧ r.reservation_date = d
      ∧ (∃ p, (p = eid ∨ p ∈ ids.getD []) ∧ participatesB p r = true)
      ∧ ∃ w, resWindow? r = some w ∧ overlapB (ts, te) w = true) →
    (create_reservation env now ok eid rid (some d) start ids g db).1.1 = false
    ∧ ∃ r' ∈ db.reservations, r'.is_active = true ∧ r'.reservation_date = d
        ∧ conflictMsgNames env r'
            (create_reservation env now ok eid rid (some d) start ids g db).1.2.1

/-- A small concrete database environment used to instantiate the proved
properties: three eaters, two open restaurants (one with tables of
capacities 2 and 4, one with a table of capacity 6), one closed
restaurant, and a dietary mapping where endorsement 5 satisfies
restrictions 1 and 2. -/
def wEnv : Env :=
  { eaters := [⟨1, ['H']⟩, ⟨2, ['A']⟩, ⟨3, ['B']⟩]
    restaurants :=
      [⟨10, ['R', '1'], true, some ⟨⟨8, 0⟩, ⟨20, 0⟩⟩⟩,
       ⟨11, ['R', '2'], true, some ⟨⟨8, 0⟩, ⟨22, 0⟩⟩⟩,
       ⟨12, ['R', '3'], false, some ⟨⟨8, 0⟩, ⟨22, 0⟩⟩⟩]
    tables := [⟨100, 10, 4⟩, ⟨101, 10, 2⟩, ⟨102, 11, 6⟩]
    mappings := [(1, 5), (2, 5)]
    endorsements := [(10, 5)] }

/-! ## Lemmas about digits, parsing and rendering -/

theorem digitVal?_digitChar {d : Nat} (h : d < 10) : digitVal? (digitChar d) = some d := by
  interval_cases d <;> decide

theorem digitChar_ne_colon {d : Nat} (h : d < 10) : digitChar d ≠ ':' := by
  interval_cases d <;> decide

theorem digitChar_toNat {d : Nat} (h : d < 10) : (digitChar d).toNat = 48 + d := by
  interval_cases d <;> decide

theorem digitChar_inj {a b : Nat} (ha : a < 10) (hb : b < 10) :
    digitChar a = digitChar b ↔ a = b := by
  interval_cases a <;> interval_cases b <;> decide

theorem pyInt?_two_digits {a b : Nat} (ha : a < 10) (hb : b < 10) :
    pyInt? [digitChar a, digitChar b] = some ((10 * a + b : Nat) : Int) := by
  interval_cases a <;> interval_cases b <;> decide

theorem natToDigits_single {n : Nat} (h : n < 10) : natToDigits n = [digitChar n] := by
  simp [natToDigits, natToDigitsAux, h]

theorem natToDigits_double {n : Nat} (h10 : 10 ≤ n) (h100 : n < 100) :
    natToDigits n = [digitChar (n / 10), digitChar (n % 10)] := by
  obtain ⟨k, rfl⟩ : ∃ k, n = k + 1 := ⟨n - 1, by omega⟩
  simp only [natToDigits, natToDigitsAux, if_neg (by omega : ¬ k + 1 < 10),
    if_pos (by omega : (k + 1) / 10 < 10)]

theorem format02_nat {n : Nat} (h : n < 100) :
    format02 (n : Int) = [digitChar (n / 10), digitChar (n % 10)] := by
  rw [format02, if_neg (by omega : ¬ (n : Int) < 0)]
  have ht : ((n : Int)).toNat = n := by simp
  rw [ht]
  by_cases h10 : n < 10
  · rw [natToDigits_single h10]
    have h0 : n / 10 = 0 := by omega
    have hm : n % 10 = n := by omega
    simp [h0, hm, digitChar]
  · rw [natToDigits_double (by omega) h]

theorem fmtHHMM_digits {h m : Nat} (hh : h < 100) (hm : m < 100) :
    fmtHHMM (h : Int) (m : Int) =
      [digitChar (h / 10), digitChar (h % 10), ':', digitChar (m / 10), digitChar (m % 10)] := by
  rw [fmtHHMM, format02_nat hh, format02_nat hm]
  rfl

theorem render_eq {t : PyTime} (h : ValidTime t) :
    t.render = [digitChar (t.hour / 10), digitChar (t.hour % 10), ':',
      digitChar (t.minute / 10), digitChar (t.minute % 10)] := by
  obtain ⟨hh, hm⟩ := h
  exact fmtHHMM_digits (by omega : t.hour < 100) (by omega : t.minute < 100)

theorem parse_render {t : PyTime} (h : ValidTime t) :
    parse_time_string t.render = .ok t := by
  obtain ⟨hh, hm⟩ := h
  rw [render_eq ⟨hh, hm⟩]
  have h1 := digitChar_ne_colon (d := t.hour / 10) (by omega)
  have h2 := digitChar_ne_colon (d := t.hour % 10) (by omega)
  have h3 := digitChar_ne_colon (d := t.minute / 10) (by omega)
  have h4 := digitChar_ne_colon (d := t.minute % 10) (by omega)
  have hcontains : ([digitChar (t.hour / 10), digitChar (t.hour % 10), ':',
      digitChar (t.minute / 10), digitChar (t.minute % 10)]).contains ':' = true := by
    simp [List.contains]
  have hsplit : splitOnColon [digitChar (t.hour / 10), digitChar (t.hour % 10), ':',
      digitChar (t.minute / 10), digitChar (t.minute % 10)] =
      [[digitChar (t.hour / 10), digitChar (t.hour % 10)],
       [digitChar (t.minute / 10), digitChar (t.minute % 10)]] := by
    simp [splitOnColon, h1, h2, h3, h4]
  rw [parse_time_string]
  rw [if_neg (by simp)]
  rw [if_neg (by simp [hcontains])]
  simp only [hsplit]
  rw [show ([[digitChar (t.hour / 10), digitChar (t.hour % 10)],
       [digitChar (t.minute / 10), digitChar (t.minute % 10)]] : List PyStr).headD [] =
       [digitChar (t.hour / 10), digitChar (t.hour % 10)] from rfl]
  rw [pyInt?_two_digits (by omega) (by omega)]
  have hlen : ([[digitChar (t.hour / 10), digitChar (t.hour % 10)],
       [digitChar (t.minute / 10), digitChar (t.minute % 10)]] : List PyStr).length > 1 := by
    simp
  rw [if_pos hlen]
  rw [show ([[digitChar (t.hour / 10), digitChar (t.hour % 10)],
       [digitChar (t.minute / 10), digitChar (t.minute % 10)]] : List PyStr).getD 1 [] =
       [digitChar (t.minute / 10), digitChar (t.minute % 10)] from rfl]
  rw [pyInt?_two_digits (by omega) (by omega)]
  have hhv : 10 * (t.hour / 10) + t.hour % 10 = t.hour := by omega
  have hmv : 10 * (t.minute / 10) + t.minute % 10 = t.minute := by omega
  rw [hhv, hmv]
  simp only [Option.some.injEq]
  split_ifs with hc1 hc2
  · exact absurd hc1 (by omega)
  · exact absurd hc2 (by omega)
  · rfl

theorem strLt_render {a b : PyTime} (ha : ValidTime a) (hb : ValidTime b) :
    strLt a.render b.render = PyTime.lt a b := by
  obtain ⟨ha1, ha2⟩ := ha
  obtain ⟨hb1, hb2⟩ := hb
  rw [render_eq ⟨ha1, ha2⟩, render_eq ⟨hb1, hb2⟩]
  rw [Bool.eq_iff_iff]
  simp only [strLt, PyTime.lt, Bool.or_eq_true, Bool.and_eq_true, decide_eq_true_eq,
    beq_iff_eq, digitChar_toNat (by omega : a.hour / 10 < 10),
    digitChar_toNat (by omega : a.hour % 10 < 10),
    digitChar_toNat (by omega : a.minute / 10 < 10),
    digitChar_toNat (by omega : a.minute % 10 < 10),
    digitChar_toNat (by omega : b.hour / 10 < 10),
    digitChar_toNat (by omega : b.hour % 10 < 10),
    digitChar_toNat (by omega : b.minute / 10 < 10),
    digitChar_toNat (by omega : b.minute % 10 < 10),
    digitChar_inj (by omega : a.hour / 10 < 10) (by omega : b.hour / 10 < 10),
    digitChar_inj (by omega : a.hour % 10 < 10) (by omega : b.hour % 10 < 10),
    digitChar_inj (by omega : a.minute / 10 < 10) (by omega : b.minute / 10 < 10),
    digitChar_inj (by omega : a.minute % 10 < 10) (by omega : b.minute % 10 < 10)]
  simp only [show (':').toNat = 58 from rfl, Nat.lt_irrefl, false_or, beq_self_eq_true,
    true_and, Bool.false_eq_true, and_false, or_false]
  omega

theorem splitOnColon_no_colon {s : PyStr} (h : ':' ∉ s) : splitOnColon s = [s] := by
  induction s with
  | nil => rfl
  | cons c cs ih =>
    have hc : c ≠ ':' := fun hc => h (hc ▸ List.mem_cons_self c cs)
    have hcs : ':' ∉ cs := fun hm => h (List.mem_cons_of_mem c hm)
    rw [splitOnColon, if_neg hc, ih hcs]

theorem splitOnColon_ne_nil (s : PyStr) : splitOnColon s ≠ [] := by
  cases s with
  | nil => simp [splitOnColon]
  | cons c cs =>
    rw [splitOnColon]
    split
    · simp
    · cases hr : splitOnColon cs <;> simp

theorem splitOnColon_length_of_colon {s : PyStr} (h : ':' ∈ s) :
    1 < (splitOnColon s).length := by
  induction s with
  | nil => cases h
  | cons c cs ih =>
    rw [splitOnColon]
    by_cases hc : c = ':'
    · rw [if_pos hc]
      have := splitOnColon_ne_nil cs
      cases hr : splitOnColon cs with
      | nil => exact absurd hr this
      | cons x xs => simp
    · rw [if_neg hc]
      have hmem : ':' ∈ cs := by
        rcases List.mem_cons.mp h with h1 | h1
        · exact absurd h1.symm hc
        · exact h1
      have := ih hmem
      cases hr : splitOnColon cs with
      | nil => exact absurd hr (splitOnColon_ne_nil cs)
      | cons x xs =>
        rw [hr] at this
        simpa using this

theorem validTime_mk {h m : Nat} (hh : h < 24) (hm : m < 60) :
    ValidTime ⟨h, m⟩ := by
  simp only [ValidTime]
  exact ⟨hh, hm⟩

/-- Success bounds of `parse_time_string`: a parsed time is a valid clock
time. -/
theorem parse_time_string_valid {s : PyStr} {t : PyTime}
    (h : parse_time_string s = .ok t) : ValidTime t := by
  rw [parse_time_string] at h
  split_ifs at h with h1 h2
  · cases hp : pyInt? s with
    | none => rw [hp] at h; cases h
    | some v =>
      rw [hp] at h
      dsimp only at h
      split_ifs at h with hv
      cases h
      exact validTime_mk (by omega) (by omega)
  · dsimp only at h
    cases hp : pyInt? ((splitOnColon s).headD []) with
    | none => rw [hp] at h; cases h
    | some hv =>
      rw [hp] at h
      dsimp only at h
      cases hq : (if (splitOnColon s).length > 1
          then pyInt? ((splitOnColon s).getD 1 []) else some 0) with
      | none => rw [hq] at h; cases h
      | some mv =>
        rw [hq] at h
        dsimp only at h
        split_ifs at h with hr1 hr2
        cases h
        exact validTime_mk (by omega) (by omega)

/-- On any start string that `parse_time_string` accepts, the `try` body of
`calculate_end_time` succeeds and produces the zero-padded rendering of
(start hour + duration) mod 24 with the start's minutes. -/
theorem calculate_end_time_core_of_parse {s : PyStr} {t : PyTime}
    (h : parse_time_string s = .ok t) (dur : Int) :
    calculate_end_time_core s dur =
      some (fmtHHMM (((t.hour : Int) + dur) % 24) (t.minute : Int)) := by
  rw [parse_time_string] at h
  rw [calculate_end_time_core]
  split_ifs at h with h1 h2
  · -- no colon in `s`: split returns `[s]`, minutes default to 0
    have hnc : ':' ∉ s := by
      intro hm
      rw [Bool.not_eq_true'] at h2
      simp [List.contains, List.elem_iff] at h2
      exact h2 hm
    rw [splitOnColon_no_colon hnc]
    cases hp : pyInt? s with
    | none => rw [hp] at h; cases h
    | some v =>
      rw [hp] at h
      dsimp only at h
      split_ifs at h with hv
      cases h
      have hcast : ((v.toNat : Nat) : Int) = v := by omega
      simp [hp, hcast]
  · -- a colon is present: both functions read the same two fields
    dsimp only at h ⊢
    cases hp : pyInt? ((splitOnColon s).headD []) with
    | none => rw [hp] at h; cases h
    | some hv =>
      rw [hp] at h
      dsimp only at h ⊢
      cases hq : (if (splitOnColon s).length > 1
          then pyInt? ((splitOnColon s).getD 1 []) else some 0) with
      | none => rw [hq] at h; cases h
      | some mv =>
        rw [hq] at h
        dsimp only at h ⊢
        split_ifs at h with hr1 hr2
        cases h
        have hv2 : ((hv.toNat : Nat) : Int) = hv := by omega
        have hm2 : ((mv.toNat : Nat) : Int) = mv := by omega
        dsimp only
        rw [hv2, hm2]

/-- `calculate_end_time` never takes its wall-clock fallback on a start
string that parses: its value is determined by the start string alone. -/
theorem calculate_end_time_of_parse {s : PyStr} {t : PyTime}
    (h : parse_time_string s = .ok t) (now : PyTime) (dur : Int) :
    calculate_end_time now s dur =
      fmtHHMM (((t.hour : Int) + dur) % 24) (t.minute : Int) := by
  rw [calculate_end_time, calculate_end_time_core_of_parse h dur]

/-- The computed end time is itself a zero-padded rendering of a valid
time, hence parses back to that time. -/
theorem parse_calculate_end_time {s : PyStr} {t : PyTime}
    (h : parse_time_string s = .ok t) (now : PyTime) (dur : Int) :
    parse_time_string (calculate_end_time now s dur) =
      .ok ⟨(((t.hour : Int) + dur) % 24).toNat, t.minute⟩ := by
  rw [calculate_end_time_of_parse h now dur]
  have hm : t.minute < 60 := (parse_time_string_valid h).2
  have h0 : 0 ≤ ((t.hour : Int) + dur) % 24 := Int.emod_nonneg _ (by norm_num)
  have h24 : ((t.hour : Int) + dur) % 24 < 24 := Int.emod_lt_of_pos _ (by norm_num)
  have hcast : (((((t.hour : Int) + dur) % 24).toNat : Nat) : Int) =
      ((t.hour : Int) + dur) % 24 := by omega
  have hp := parse_render (t := ⟨(((t.hour : Int) + dur) % 24).toNat, t.minute⟩)
    (validTime_mk (by omega) hm)
  rw [PyTime.render] at hp
  dsimp only at hp
  rw [hcast] at hp
  exact hp

/-! ## Claim theorems -/

/-- C5: the overlap predicate used by both checkers holds iff
`A.start < B.end` and `A.end > B.start`; it is symmetric; and two windows
sharing a boundary (`A.end = B.start`) never overlap, so back-to-back
bookings are permitted. -/
theorem claim_C5_overlap_predicate :
    (∀ A B : PyTime × PyTime, overlapB A B = (PyTime.lt A.1 B.2 && PyTime.lt B.1 A.2))
    ∧ (∀ A B : PyTime × PyTime, overlapB A B = overlapB B A)
    ∧ (∀ A B : PyTime × PyTime, A.2 = B.1 → overlapB A B = false) := by
  refine ⟨fun A B => rfl, fun A B => ?_, fun A B h => ?_⟩
  · rw [overlapB, overlapB, Bool.and_comm]
  · rw [overlapB, h]
    have : PyTime.lt B.1 B.1 = false := by simp [PyTime.lt]
    rw [this, Bool.and_false]

/-- Witness for C5 at the spec's own example: `[18:00,20:00)` against
`[20:00,22:00)` is symmetric and does not overlap. -/
theorem claim_C5_overlap_predicate_witness :
    overlapB (⟨18, 0⟩, ⟨20, 0⟩) (⟨20, 0⟩, ⟨22, 0⟩)
      = overlapB (⟨20, 0⟩, ⟨22, 0⟩) (⟨18, 0⟩, ⟨20, 0⟩)
    ∧ overlapB (⟨18, 0⟩, ⟨20, 0⟩) (⟨20, 0⟩, ⟨22, 0⟩) = false :=
  ⟨claim_C5_overlap_predicate.2.1 _ _,
   claim_C5_overlap_predicate.2.2 (⟨18, 0⟩, ⟨20, 0⟩) (⟨20, 0⟩, ⟨22, 0⟩) rfl⟩

/-- C10: on any start string accepted by `parse_time_string`, the `try`
body of `calculate_end_time` succeeds — the wall-clock fallback is never
taken — and the result is the zero-padded rendering of
(start hour + duration) mod 24 with the start's minutes unchanged, hence a
function of the start string alone. -/
theorem claim_C10_end_time_deterministic {s : PyStr} {t : PyTime}
    (h : parse_time_string s = .ok t) (dur : Int) :
    calculate_end_time_core s dur =
      some (fmtHHMM (((t.hour : Int) + dur) % 24) (t.minute : Int))
    ∧ ∀ now : PyTime, calculate_end_time now s dur =
      fmtHHMM (((t.hour : Int) + dur) % 24) (t.minute : Int) :=
  ⟨calculate_end_time_core_of_parse h dur,
   fun now => calculate_end_time_of_parse h now dur⟩

/-- Witness for C10 at start string `"19:30"` and the default two-hour
duration. -/
theorem claim_C10_end_time_deterministic_witness :
    parse_time_string ['1', '9', ':', '3', '0'] = .ok ⟨19, 30⟩
    ∧ (calculate_end_time_core ['1', '9', ':', '3', '0'] 2 =
        some (fmtHHMM ((((19 : Nat) : Int) + 2) % 24) ((30 : Nat) : Int))
      ∧ ∀ now : PyTime, calculate_end_time now ['1', '9', ':', '3', '0'] 2 =
        fmtHHMM ((((19 : Nat) : Int) + 2) % 24) ((30 : Nat) : Int)) :=
  ⟨rfl, claim_C10_end_time_deterministic (t := ⟨19, 30⟩)
    (show parse_time_string ['1', '9', ':', '3', '0'] = .ok ⟨19, 30⟩ from rfl) 2⟩

/-- Control-flow case analysis of `create_reservation`: every return either
leaves the store untouched or is the successful commit. -/
theorem create_reservation_state_cases (env : Env) (now : PyTime) (commitOk : Bool)
    (eater_id restaurant_id : Nat) (reservation_date : Option Nat)
    (reservation_start_time : PyStr) (attendee_ids : Option (List Nat))
    (guests_count : Nat) (db : DB) :
    (create_reservation env now commitOk eater_id restaurant_id reservation_date
      reservation_start_time attendee_ids guests_count db).2 = db
    ∨ (create_reservation env now commitOk eater_id restaurant_id reservation_date
      reservation_start_time attendee_ids guests_count db).1.1 = true := by
  rw [create_reservation]
  dsimp only
  repeat' split
  all_goals simp

/-- C3: whenever `create_reservation` returns an unsuccessful result — for
any reason, including a failing persistence commit — the stored state (the
reservations together with their attendee associations, and the key
counter) is exactly what it was before the call. -/
theorem claim_C3_create_atomic_on_failure (env : Env) (now : PyTime) (commitOk : Bool)
    (eater_id restaurant_id : Nat) (reservation_date : Option Nat)
    (reservation_start_time : PyStr) (attendee_ids : Option (List Nat))
    (guests_count : Nat) (db : DB)
    (h : (create_reservation env now commitOk eater_id restaurant_id reservation_date
      reservation_start_time attendee_ids guests_count db).1.1 = false) :
    (create_reservation env now commitOk eater_id restaurant_id reservation_date
      reservation_start_time attendee_ids guests_count db).2 = db := by
  rcases create_reservation_state_cases env now commitOk eater_id restaurant_id
    reservation_date reservation_start_time attendee_ids guests_count db with h2 | h2
  · exact h2
  · rw [h] at h2
    cases h2

/-- Witness for C3: a create call against a missing restaurant fails and
leaves the empty store unchanged. -/
theorem claim_C3_create_atomic_on_failure_witness :
    (create_reservation wEnv ⟨12, 0⟩ true 1 99 (some 0) ['1', '2'] none 0 emptyDB).1.1 = false
    ∧ (create_reservation wEnv ⟨12, 0⟩ true 1 99 (some 0) ['1', '2'] none 0 emptyDB).2
      = emptyDB :=
  ⟨by decide,
   claim_C3_create_atomic_on_failure wEnv ⟨12, 0⟩ true 1 99 (some 0) ['1', '2'] none 0
     emptyDB (by decide)⟩

/-- A successful `Eater.query.get` returns a row with the requested
primary key. -/
theorem getEater_some_id {env : Env} {e : Nat} {a : Eater}
    (h : getEater env e = some a) : a.id = e := by
  have := List.find?_some h
  simpa using this

/-- A successful `validate_attendees` resolves exactly the requested ids,
in order, to rows of the store. -/
theorem validate_attendees_ok (env : Env) (ids : List Nat) :
    ∀ atts, validate_attendees env ids = .ok atts →
      atts.map Eater.id = ids ∧ ∀ a ∈ atts, getEater env a.id = some a := by
  induction ids with
  | nil =>
    intro atts h
    rw [validate_attendees] at h
    cases h
    exact ⟨rfl, by simp⟩
  | cons i rest ih =>
    intro atts h
    rw [validate_attendees] at h
    cases hg : getEater env i with
    | none => rw [hg] at h; cases h
    | some a =>
      rw [hg] at h
      cases hv : validate_attendees env rest with
      | error m => rw [hv] at h; cases h
      | ok tailAtts =>
        rw [hv] at h
        cases h
        obtain ⟨hmap, hmem⟩ := ih tailAtts hv
        refine ⟨by simp [hmap, getEater_some_id hg], ?_⟩
        intro b hb
        rcases List.mem_cons.mp hb with rfl | hb'
        · rw [getEater_some_id hg]
          exact hg
        · exact hmem b hb'

/-- A successful `validate_host` is the `Eater.query.get` lookup. -/
theorem validate_host_ok {env : Env} {e : Nat} {host : Eater}
    (h : validate_host env e = .ok host) : getEater env e = some host := by
  rw [validate_host] at h
  cases hg : getEater env e with
  | none => rw [hg] at h; cases h
  | some a => rw [hg] at h; cases h; rfl

/-- C6 (amended): the party size `create_reservation` computes is the
length of the resolved attendee list, plus one when the host's id is not
among the attendee ids, plus the unnamed guest count; when the attendee id
list contains no duplicates this equals the number of distinct persons in
{host} ∪ attendees plus the guest count.  (With duplicate attendee ids the
raw length is used, so duplicates do inflate the count — see the
counterexample.) -/
theorem claim_C6_party_size_corrected (env : Env) (eater_id : Nat) (ids : List Nat)
    (guests_count : Nat) (host : Eater) (attendees : List Eater)
    (hhost : validate_host env eater_id = .ok host)
    (hatt : validate_attendees env ids = .ok attendees)
    (hnodup : ids.Nodup) :
    party_size_of host attendees guests_count =
      (eater_id :: ids).dedup.length + guests_count := by
  have hg : getEater env eater_id = some host := validate_host_ok hhost
  have hostid : host.id = eater_id := getEater_some_id hg
  obtain ⟨hmap, hmem⟩ := validate_attendees_ok env ids attendees hatt
  have hlen : attendees.length = ids.length := by rw [← hmap, List.length_map]
  have hmemiff : host ∈ attendees ↔ eater_id ∈ ids := by
    constructor
    · intro hc
      rw [← hmap, ← hostid]
      exact List.mem_map_of_mem Eater.id hc
    · intro hc
      rw [← hmap] at hc
      rcases List.mem_map.mp hc with ⟨a, ha, haid⟩
      have hga : getEater env a.id = some a := hmem a ha
      rw [haid, hg] at hga
      cases hga
      exact ha
  have hcont : (attendees.contains host = true) ↔ eater_id ∈ ids := by
    rw [← hmemiff]
    simp [List.contains]
  rw [party_size_of]
  by_cases hin : eater_id ∈ ids
  · rw [if_pos (hcont.mpr hin), List.dedup_cons_of_mem hin, hnodup.dedup, hlen]
    omega
  · rw [if_neg (by rw [hcont]; exact hin),
      List.dedup_cons_of_not_mem hin, List.length_cons, hnodup.dedup, hlen]

/-- Witness for C6 at the spec's own example: host 1 also listed as an
attendee, two further distinct attendees, two unnamed guests, giving a
party of five. -/
theorem claim_C6_party_size_corrected_witness :
    ([1, 2, 3] : List Nat).Nodup
    ∧ party_size_of ⟨1, ['H']⟩ [⟨1, ['H']⟩, ⟨2, ['A']⟩, ⟨3, ['B']⟩] 2 =
      ((1 : Nat) :: [1, 2, 3]).dedup.length + 2 :=
  ⟨by decide,
   claim_C6_party_size_corrected wEnv 1 [1, 2, 3] 2 ⟨1, ['H']⟩
     [⟨1, ['H']⟩, ⟨2, ['A']⟩, ⟨3, ['B']⟩] rfl rfl (by decide)⟩

/-- Counterexample to C6 as stated: with duplicate attendee ids `[2, 2]`
the created reservation records a party size of 3, while the number of
distinct persons in {host} ∪ attendees (plus zero guests) is 2 — duplicate
attendee ids do inflate the computed count. -/
theorem claim_C6_party_size_counterexample :
    ((create_reservation wEnv ⟨0, 0⟩ true 1 11 (some 5) ['0', '9'] (some [2, 2]) 0
        emptyDB).1.2.2.map Reservation.party_size) = some 3
    ∧ ((1 : Nat) :: [2, 2]).dedup.length + 0 = 2
    ∧ (3 : Nat) ≠ 2 := by
  refine ⟨?_, by decide, by decide⟩
  rfl

/-- C7 (amended): with a non-empty restriction set, a restaurant passes
the availability search's restriction filter iff it holds at least one
endorsement row from the matched list and at least as many such rows as
there are matched (restriction, endorsement) mapping rows — the threshold
counts mapping rows with multiplicity (one per pair, so an endorsement
satisfying two requested restrictions is counted twice), not the size of
the matched endorsement set; with an empty restriction set every
reservation-accepting (open) restaurant passes. -/
theorem claim_C7_restriction_filter_corrected (env : Env) (res_time : PyTime)
    (restrictions : List Nat) (r : Restaurant) :
    r ∈ get_potential_restaurants env (some res_time) restrictions ↔
      r ∈ env.restaurants ∧ r.accepts_reservations = true ∧ openAtB r res_time = true
      ∧ (restrictions = []
         ∨ (0 < heldMatchCount env r.id restrictions
            ∧ matchedPairCount env restrictions ≤ heldMatchCount env r.id restrictions)) := by
  rw [get_potential_restaurants]
  by_cases hempty : restrictions.isEmpty
  · rw [if_pos hempty]
    have : restrictions = [] := List.isEmpty_iff.mp hempty
    simp [List.mem_filter, this]
  · rw [if_neg hempty]
    have hne : ¬ restrictions = [] := fun hc => hempty (by simp [hc])
    simp only [List.mem_filter, Bool.and_eq_true, decide_eq_true_eq,
      heldMatchCount, matchedPairCount]
    constructor
    · rintro ⟨⟨hmem, hq⟩, hacc, hopen⟩
      refine ⟨hmem, hacc, hopen, Or.inr ?_⟩
      simpa using hq
    · rintro ⟨hmem, hacc, hopen, hq⟩
      rcases hq with hq | hq
      · exact absurd hq hne
      · exact ⟨⟨hmem, by simpa using hq⟩, hacc, hopen⟩

/-- Counterexample to C7 as stated: endorsement 5 covers both requested
restrictions 1 and 2 and the restaurant holds it, so by the claim's
set-size rule the (accepting, open) restaurant passes, yet the code's
multiplicity threshold of 2 excludes it — the query returns no
restaurant. -/
theorem claim_C7_restriction_filter_counterexample :
    claimedRestrictionPass wEnv 10 [1, 2] = true
    ∧ (⟨10, ['R', '1'], true, some ⟨⟨8, 0⟩, ⟨20, 0⟩⟩⟩ : Restaurant) ∈ wEnv.restaurants
    ∧ (⟨10, ['R', '1'], true, some ⟨⟨8, 0⟩, ⟨20, 0⟩⟩⟩ : Restaurant).accepts_reservations = true
    ∧ openAtB ⟨10, ['R', '1'], true, some ⟨⟨8, 0⟩, ⟨20, 0⟩⟩⟩ ⟨12, 0⟩ = true
    ∧ get_potential_restaurants wEnv (some ⟨12, 0⟩) [1, 2] = [] := by
  refine ⟨by decide, by decide, by decide, by decide, ?_⟩
  rfl

/-! ## List and window helper lemmas -/

theorem overlapB_comm (A B : PyTime × PyTime) : overlapB A B = overlapB B A := by
  rw [overlapB, overlapB, Bool.and_comm]

theorem mem_insertByCapacity {x t : Table} {l : List Table} :
    x ∈ insertByCapacity t l ↔ x = t ∨ x ∈ l := by
  induction l with
  | nil => simp [insertByCapacity]
  | cons u us ih =>
    rw [insertByCapacity]
    split_ifs with hc
    · simp
    · simp only [List.mem_cons, ih]
      tauto

theorem mem_sortByCapacity {x : Table} {l : List Table} :
    x ∈ sortByCapacity l ↔ x ∈ l := by
  induction l with
  | nil => simp [sortByCapacity]
  | cons t ts ih =>
    rw [sortByCapacity, mem_insertByCapacity, ih]
    simp

theorem insertByCapacity_ne_nil (t : Table) (l : List Table) :
    insertByCapacity t l ≠ [] := by
  cases l with
  | nil => simp [insertByCapacity]
  | cons u us =>
    rw [insertByCapacity]
    split_ifs <;> simp

theorem sortByCapacity_isEmpty {l : List Table} :
    (sortByCapacity l).isEmpty = l.isEmpty := by
  cases l with
  | nil => rfl
  | cons t ts =>
    rw [sortByCapacity]
    have := insertByCapacity_ne_nil t (sortByCapacity ts)
    cases hr : insertByCapacity t (sortByCapacity ts) with
    | nil => exact absurd hr this
    | cons x xs => rfl

theorem minByCapacity_mem (t : Table) (l : List Table) :
    minByCapacity t l ∈ t :: l := by
  induction l generalizing t with
  | nil => simp [minByCapacity]
  | cons u us ih =>
    rw [minByCapacity]
    split_ifs with hc
    · have := ih u
      simp only [List.mem_cons] at this ⊢
      tauto
    · have := ih t
      simp only [List.mem_cons] at this ⊢
      tauto

theorem minByCapacity_min (t : Table) (l : List Table) :
    ∀ u ∈ t :: l, (minByCapacity t l).capacity ≤ u.capacity := by
  induction l generalizing t with
  | nil =>
    intro u hu
    simp only [List.mem_cons, List.not_mem_nil, or_false] at hu
    cases hu
    simp [minByCapacity]
  | cons v vs ih =>
    intro u hu
    rw [minByCapacity]
    simp only [List.mem_cons] at hu
    split_ifs with hc
    · have h1 := ih v v (List.mem_cons_self v vs)
      have h2 : ∀ w ∈ vs, (minByCapacity v vs).capacity ≤ w.capacity :=
        fun w hw => ih v w (List.mem_cons_of_mem v hw)
      rcases hu with hu | hu | hu
      · rw [hu]; omega
      · rw [hu]; omega
      · exact h2 u hu
    · have h1 := ih t t (List.mem_cons_self t vs)
      have h2 : ∀ w ∈ vs, (minByCapacity t vs).capacity ≤ w.capacity :=
        fun w hw => ih t w (List.mem_cons_of_mem t hw)
      rcases hu with hu | hu | hu
      · rw [hu]; omega
      · rw [hu]; omega
      · exact h2 u hu

theorem dedupById_subset {seen : List Nat} {l : List Reservation} {r : Reservation}
    (h : r ∈ dedupById seen l) : r ∈ l := by
  induction l generalizing seen with
  | nil => simp [dedupById] at h
  | cons x xs ih =>
    rw [dedupById] at h
    split_ifs at h with hc
    · exact List.mem_cons_of_mem x (ih h)
    · rcases List.mem_cons.mp h with h' | h'
      · rw [h']
        exact List.mem_cons_self _ _
      · exact List.mem_cons_of_mem x (ih h')

theorem dedupById_mem {l : List Reservation}
    (hinj : ∀ a ∈ l, ∀ b ∈ l, a.id = b.id → a = b) :
    ∀ {seen : List Nat} {r : Reservation}, r ∈ l → ¬ r.id ∈ seen →
      r ∈ dedupById seen l := by
  induction l with
  | nil => intro seen r h; cases h
  | cons x xs ih =>
    intro seen r hr hnot
    have hinj' : ∀ a ∈ xs, ∀ b ∈ xs, a.id = b.id → a = b := fun a ha b hb =>
      hinj a (List.mem_cons_of_mem x ha) b (List.mem_cons_of_mem x hb)
    rw [dedupById]
    split_ifs with hc
    · rcases List.mem_cons.mp hr with h' | hr'
      · rw [h'] at hnot
        exact absurd (by simpa [List.contains] using hc) hnot
      · exact ih hinj' hr' hnot
    · rcases List.mem_cons.mp hr with h' | hr'
      · rw [h']
        exact List.mem_cons_self _ _
      · by_cases hid : r.id = x.id
        · have hrx : r = x := hinj r (List.mem_cons_of_mem x hr') x (List.mem_cons_self x xs) hid
          rw [hrx]
          exact List.mem_cons_self _ _
        · refine List.mem_cons_of_mem x (ih hinj' hr' ?_)
          simp only [List.mem_cons]
          push_neg
          exact ⟨hid, hnot⟩

theorem fmtHHMM_ne_nil (h m : Int) : fmtHHMM h m ≠ [] := by
  rw [fmtHHMM]
  cases hf : format02 h with
  | nil => simp
  | cons c cs => simp

/-- Spec of a successful `validate_reservation_time`: the date parsed, the
restaurant has hours, the start string parses, and the start is within
the hours. -/
theorem validate_reservation_time_ok {restaurant : Restaurant} {dateIn : Option Nat}
    {start : PyStr} {d : Nat}
    (h : validate_reservation_time restaurant dateIn start = .ok d) :
    dateIn = some d ∧ ∃ hrs ts, restaurant.hours = some hrs
      ∧ parse_time_string start = .ok ts
      ∧ PyTime.lt ts hrs.opening_time = false
      ∧ PyTime.lt hrs.closing_time ts = false := by
  rw [validate_reservation_time.eq_def] at h
  cases dateIn with
  | none => cases h
  | some d0 =>
    cases hh : restaurant.hours with
    | none => rw [hh] at h; cases h
    | some hrs =>
      rw [hh] at h
      cases hp : parse_time_string start with
      | error m => rw [hp] at h; cases h
      | ok ts =>
        rw [hp] at h
        dsimp only at h
        split_ifs at h with hcond
        rw [Bool.or_eq_true, not_or, Bool.not_eq_true, Bool.not_eq_true] at hcond
        cases h
        exact ⟨rfl, hrs, ts, rfl, rfl, hcond.1, hcond.2⟩

/-! ## Characterization of `check_table_availability` -/

theorem check_table_availability_unfold (env : Env) (db : DB) (now : PyTime)
    (rid n d : Nat) (start endS : PyStr) {ts te : PyTime}
    (hne : endS.isEmpty = false)
    (hstart : parse_time_string start = .ok ts)
    (hend : parse_time_string endS = .ok te) :
    check_table_availability env db now rid n d start (some endS) =
      (if (sortByCapacity (env.tables.filter fun t =>
            t.restaurant_id == rid && n ≤ t.capacity)).isEmpty then
        .error .noTablesForPartySize
      else
        match (sortByCapacity (env.tables.filter fun t =>
            t.restaurant_id == rid && n ≤ t.capacity)).filter (fun t =>
            !(((db.reservations.filter fun r =>
                r.restaurant_id == rid && r.reservation_date == d && r.is_active).filter
                (reqOverlapB ts te)).map fun r => r.table_id).contains t.id) with
        | [] => .error .noTablesAtTime
        | t :: rest => .ok (minByCapacity t rest)) := by
  rw [check_table_availability]
  dsimp only
  rw [hne]
  simp only [Bool.false_eq_true, if_false, hstart, hend]

/-- A successful allocation returns a table of the restaurant that fits
the party, is not blocked at the restaurant on that date, and has minimal
capacity among such tables. -/
theorem check_table_availability_ok (env : Env) (db : DB) (now : PyTime)
    (rid n d : Nat) (start endS : PyStr) {ts te : PyTime} {t : Table}
    (hne : endS.isEmpty = false)
    (hstart : parse_time_string start = .ok ts)
    (hend : parse_time_string endS = .ok te)
    (h : check_table_availability env db now rid n d start (some endS) = .ok t) :
    t ∈ env.tables ∧ t.restaurant_id = rid ∧ n ≤ t.capacity
    ∧ (∀ r ∈ db.reservations, r.restaurant_id = rid → r.reservation_date = d →
        r.is_active = true → reqOverlapB ts te r = true → r.table_id ≠ t.id)
    ∧ (∀ t' ∈ env.tables, t'.restaurant_id = rid → n ≤ t'.capacity →
        (∀ r ∈ db.reservations, r.restaurant_id = rid → r.reservation_date = d →
          r.is_active = true → reqOverlapB ts te r = true → r.table_id ≠ t'.id) →
        t.capacity ≤ t'.capacity) := by
  rw [check_table_availability_unfold env db now rid n d start endS hne hstart hend] at h
  split_ifs at h with hempty
  set reserved := ((db.reservations.filter fun r =>
      r.restaurant_id == rid && r.reservation_date == d && r.is_active).filter
      (reqOverlapB ts te)).map (fun r => r.table_id) with hreserved
  have hresmem : ∀ tid, tid ∈ reserved ↔
      ∃ r ∈ db.reservations, r.restaurant_id = rid ∧ r.reservation_date = d
        ∧ r.is_active = true ∧ reqOverlapB ts te r = true ∧ r.table_id = tid := by
    intro tid
    rw [hreserved]
    simp only [List.mem_map, List.mem_filter, Bool.and_eq_true, beq_iff_eq]
    tauto
  cases havail : (sortByCapacity (env.tables.filter fun t =>
      t.restaurant_id == rid && n ≤ t.capacity)).filter
      (fun t => !reserved.contains t.id) with
  | nil => rw [havail] at h; cases h
  | cons t0 rest =>
    rw [havail] at h
    cases h
    have hmin_mem : minByCapacity t0 rest ∈ t0 :: rest := minByCapacity_mem t0 rest
    have hmem : minByCapacity t0 rest ∈ (sortByCapacity (env.tables.filter fun t =>
        t.restaurant_id == rid && n ≤ t.capacity)).filter
        (fun t => !reserved.contains t.id) := by
      rw [havail]
      exact hmin_mem
    rw [List.mem_filter, mem_sortByCapacity, List.mem_filter] at hmem
    obtain ⟨⟨hmemtab, hcond⟩, hfree⟩ := hmem
    rw [Bool.and_eq_true, beq_iff_eq, decide_eq_true_eq] at hcond
    have hfree' : ¬ (minByCapacity t0 rest).id ∈ reserved := by
      intro hc
      rw [Bool.not_eq_eq_eq_not, Bool.not_true, List.contains] at hfree
      rw [← List.elem_iff] at hc
      rw [hfree] at hc
      exact Bool.noConfusion hc
    refine ⟨hmemtab, hcond.1, hcond.2, ?_, ?_⟩
    · intro r hr h1 h2 h3 h4 h5
      exact hfree' ((hresmem _).mpr ⟨r, hr, h1, h2, h3, h4, h5⟩)
    · intro t' hmem' hrid' hcap' hnoblock
      have ht'filter : t' ∈ (sortByCapacity (env.tables.filter fun t =>
          t.restaurant_id == rid && n ≤ t.capacity)).filter
          (fun t => !reserved.contains t.id) := by
        rw [List.mem_filter, mem_sortByCapacity, List.mem_filter]
        refine ⟨⟨hmem', ?_⟩, ?_⟩
        · rw [Bool.and_eq_true, beq_iff_eq, decide_eq_true_eq]
          exact ⟨hrid', hcap'⟩
        · rw [Bool.not_eq_eq_eq_not, Bool.not_true, ← Bool.not_eq_true]
          intro hc
          rw [List.contains, List.elem_iff] at hc
          rcases (hresmem _).mp hc with ⟨r, hr, h1, h2, h3, h4, h5⟩
          exact hnoblock r hr h1 h2 h3 h4 h5
      rw [havail] at ht'filter
      exact minByCapacity_min t0 rest t' ht'filter

/-- The distinct no-table-for-that-party-size failure occurs exactly when
no table of the restaurant can seat the party. -/
theorem check_table_availability_no_size (env : Env) (db : DB) (now : PyTime)
    (rid n d : Nat) (start endS : PyStr) {ts te : PyTime}
    (hne : endS.isEmpty = false)
    (hstart : parse_time_string start = .ok ts)
    (hend : parse_time_string endS = .ok te) :
    check_table_availability env db now rid n d start (some endS)
      = .error .noTablesForPartySize
    ↔ ¬ ∃ t ∈ env.tables, t.restaurant_id = rid ∧ n ≤ t.capacity := by
  rw [check_table_availability_unfold env db now rid n d start endS hne hstart hend]
  have hiff : (sortByCapacity (env.tables.filter fun t =>
      t.restaurant_id == rid && n ≤ t.capacity)).isEmpty = true ↔
      ¬ ∃ t ∈ env.tables, t.restaurant_id = rid ∧ n ≤ t.capacity := by
    rw [sortByCapacity_isEmpty, List.isEmpty_iff, List.filter_eq_nil_iff]
    constructor
    · rintro hnone ⟨t, hmem, h1, h2⟩
      have := hnone t hmem
      rw [Bool.and_eq_true, beq_iff_eq, decide_eq_true_eq] at this
      exact this ⟨h1, h2⟩
    · intro hno t hmem
      rw [Bool.and_eq_true, beq_iff_eq, decide_eq_true_eq]
      rintro ⟨h1, h2⟩
      exact hno ⟨t, hmem, h1, h2⟩
  split_ifs with hempty
  · exact ⟨fun _ => hiff.mp hempty, fun _ => rfl⟩
  · constructor
    · intro hX
      exfalso
      split at hX <;> simp_all
    · intro hno
      exact absurd (hiff.mpr hno) hempty

theorem mem_reserved_ids {db : DB} {rid d : Nat} {ts te : PyTime} {tid : Nat} :
    tid ∈ ((db.reservations.filter fun r =>
        r.restaurant_id == rid && r.reservation_date == d && r.is_active).filter
        (reqOverlapB ts te)).map (fun r => r.table_id)
    ↔ ∃ r ∈ db.reservations, r.restaurant_id = rid ∧ r.reservation_date = d
        ∧ r.is_active = true ∧ reqOverlapB ts te r = true ∧ r.table_id = tid := by
  simp only [List.mem_map, List.mem_filter, Bool.and_eq_true, beq_iff_eq]
  tauto

theorem mem_suitable {env : Env} {rid n : Nat} {t : Table} :
    t ∈ sortByCapacity (env.tables.filter fun t =>
        t.restaurant_id == rid && n ≤ t.capacity)
    ↔ t ∈ env.tables ∧ t.restaurant_id = rid ∧ n ≤ t.capacity := by
  rw [mem_sortByCapacity, List.mem_filter]
  simp only [Bool.and_eq_true, beq_iff_eq, decide_eq_true_eq]

/-- The distinct no-table-at-that-time failure occurs exactly when some
table fits the party but every fitting table has a conflicting active
reservation at the restaurant on that date. -/
theorem check_table_availability_no_time (env : Env) (db : DB) (now : PyTime)
    (rid n d : Nat) (start endS : PyStr) {ts te : PyTime}
    (hne : endS.isEmpty = false)
    (hstart : parse_time_string start = .ok ts)
    (hend : parse_time_string endS = .ok te) :
    check_table_availability env db now rid n d start (some endS)
      = .error .noTablesAtTime
    ↔ (∃ t ∈ env.tables, t.restaurant_id = rid ∧ n ≤ t.capacity)
      ∧ ∀ t ∈ env.tables, t.restaurant_id = rid → n ≤ t.capacity →
          ∃ r ∈ db.reservations, r.restaurant_id = rid ∧ r.reservation_date = d
            ∧ r.is_active = true ∧ reqOverlapB ts te r = true ∧ r.table_id = t.id := by
  rw [check_table_availability_unfold env db now rid n d start endS hne hstart hend]
  have hsuit : (sortByCapacity (env.tables.filter fun t =>
      t.restaurant_id == rid && n ≤ t.capacity)).isEmpty = true ↔
      ¬ ∃ t ∈ env.tables, t.restaurant_id = rid ∧ n ≤ t.capacity := by
    rw [sortByCapacity_isEmpty, List.isEmpty_iff, List.filter_eq_nil_iff]
    constructor
    · rintro hnone ⟨t, hmem, h1, h2⟩
      have := hnone t hmem
      rw [Bool.and_eq_true, beq_iff_eq, decide_eq_true_eq] at this
      exact this ⟨h1, h2⟩
    · intro hno t hmem
      rw [Bool.and_eq_true, beq_iff_eq, decide_eq_true_eq]
      rintro ⟨h1, h2⟩
      exact hno ⟨t, hmem, h1, h2⟩
  split_ifs with hempty
  · constructor
    · intro hX
      exfalso
      simp at hX
    · rintro ⟨hex, _⟩
      exact absurd hex (hsuit.mp hempty)
  · cases hfil : (sortByCapacity (env.tables.filter fun t =>
        t.restaurant_id == rid && n ≤ t.capacity)).filter (fun t =>
        !(((db.reservations.filter fun r =>
            r.restaurant_id == rid && r.reservation_date == d && r.is_active).filter
            (reqOverlapB ts te)).map fun r => r.table_id).contains t.id) with
    | nil =>
      constructor
      · intro _
        constructor
        · by_contra hno
          exact hempty (hsuit.mpr hno)
        · intro t hmem h1 h2
          have hts : t ∈ sortByCapacity (env.tables.filter fun t =>
              t.restaurant_id == rid && n ≤ t.capacity) :=
            mem_suitable.mpr ⟨hmem, h1, h2⟩
          have := List.filter_eq_nil_iff.mp hfil t hts
          have hcont : (((db.reservations.filter fun r =>
              r.restaurant_id == rid && r.reservation_date == d && r.is_active).filter
              (reqOverlapB ts te)).map fun r => r.table_id).contains t.id = true := by
            by_contra hc
            rw [Bool.not_eq_true] at hc
            apply this
            rw [hc]
            rfl
          rw [List.contains, List.elem_iff] at hcont
          exact mem_reserved_ids.mp hcont
      · intro _
        rfl
    | cons t0 rest =>
      constructor
      · intro hX
        cases hX
      · rintro ⟨_, hall⟩
        exfalso
        have ht0 : t0 ∈ (sortByCapacity (env.tables.filter fun t =>
            t.restaurant_id == rid && n ≤ t.capacity)).filter (fun t =>
            !(((db.reservations.filter fun r =>
                r.restaurant_id == rid && r.reservation_date == d && r.is_active).filter
                (reqOverlapB ts te)).map fun r => r.table_id).contains t.id) := by
          rw [hfil]
          exact List.mem_cons_self t0 rest
        rw [List.mem_filter] at ht0
        obtain ⟨hsuit0, hfree0⟩ := ht0
        rcases mem_suitable.mp hsuit0 with ⟨hmem0, h10, h20⟩
        rcases hall t0 hmem0 h10 h20 with ⟨r, hr, h1, h2, h3, h4, h5⟩
        have hmemid : t0.id ∈ ((db.reservations.filter fun r =>
            r.restaurant_id == rid && r.reservation_date == d && r.is_active).filter
            (reqOverlapB ts te)).map (fun r => r.table_id) :=
          mem_reserved_ids.mpr ⟨r, hr, h1, h2, h3, h4, h5⟩
        have hcont : (((db.reservations.filter fun r =>
            r.restaurant_id == rid && r.reservation_date == d && r.is_active).filter
            (reqOverlapB ts te)).map fun r => r.table_id).contains t0.id = true := by
          rw [List.contains, List.elem_iff]
          exact hmemid
        rw [hcont] at hfree0
        simp at hfree0

/-! ## Characterization of the person conflict checks -/

theorem resOverlapB_eq {r1 r2 : Reservation} {w1 w2 : PyTime × PyTime}
    (h1 : resWindow? r1 = some w1) (h2 : resWindow? r2 = some w2) :
    resOverlapB r1 r2 = overlapB w1 w2 := by
  rw [resOverlapB, h1, h2]

theorem reqOverlapB_eq {ts te : PyTime} {r : Reservation} {w : PyTime × PyTime}
    (h : resWindow? r = some w) : reqOverlapB ts te r = overlapB (ts, te) w := by
  rw [reqOverlapB, h]

theorem scanEaterConflicts_ok {env : Env} {a b : PyTime} :
    ∀ {l : List Reservation}, scanEaterConflicts env a b l = .ok () →
      ∀ r ∈ l, ∀ w, resWindow? r = some w → overlapB (a, b) w = false := by
  intro l
  induction l with
  | nil =>
    intro _ r hr
    cases hr
  | cons x xs ih =>
    intro h r hr w hw
    rw [scanEaterConflicts] at h
    cases hx : resWindow? x with
    | some wx =>
      rw [hx] at h
      dsimp only at h
      split_ifs at h with hov
      rcases List.mem_cons.mp hr with h' | h'
      · rw [h', hx] at hw
        cases hw
        exact Bool.not_eq_true _ ▸ eq_false_of_ne_true hov
      · exact ih h r h' w hw
    | none =>
      rw [hx] at h
      dsimp only at h
      rcases List.mem_cons.mp hr with h' | h'
      · rw [h', hx] at hw
        cases hw
      · exact ih h r h' w hw

theorem scanEaterConflicts_err {env : Env} {a b : PyTime} :
    ∀ {l : List Reservation} {m : Msg}, scanEaterConflicts env a b l = .error m →
      ∃ r ∈ l, ∃ w, resWindow? r = some w ∧ overlapB (a, b) w = true
        ∧ m = .eaterConflict (restaurantDisplayName env r.restaurant_id)
            r.restaurant_id r.reservation_start_time r.reservation_end_time := by
  intro l
  induction l with
  | nil =>
    intro m h
    rw [scanEaterConflicts] at h
    cases h
  | cons x xs ih =>
    intro m h
    rw [scanEaterConflicts] at h
    cases hx : resWindow? x with
    | some wx =>
      rw [hx] at h
      dsimp only at h
      split_ifs at h with hov
      · cases h
        exact ⟨x, List.mem_cons_self x xs, wx, hx, hov, rfl⟩
      · rcases ih h with ⟨r, hr, w, hw, hov', hm⟩
        exact ⟨r, List.mem_cons_of_mem x hr, w, hw, hov', hm⟩
    | none =>
      rw [hx] at h
      dsimp only at h
      rcases ih h with ⟨r, hr, w, hw, hov', hm⟩
      exact ⟨r, List.mem_cons_of_mem x hr, w, hw, hov', hm⟩

theorem check_eater_availability_ok {env : Env} {db : DB} {p d : Nat}
    {starts ends : PyStr} {a b : PyTime}
    (hs : parse_time_string starts = .ok a) (he : parse_time_string ends = .ok b)
    (hinj : ∀ r1 ∈ db.reservations, ∀ r2 ∈ db.reservations, r1.id = r2.id → r1 = r2)
    (h : check_eater_availability env db p d starts ends = .ok ()) :
    ∀ r ∈ db.reservations, participatesB p r = true → r.reservation_date = d →
      r.is_active = true → ∀ w, resWindow? r = some w → overlapB (a, b) w = false := by
  rw [check_eater_availability, hs, he] at h
  dsimp only at h
  intro r hr hpart hdate hact w hw
  have hrin : r ∈ (db.reservations.filter fun r =>
      r.eater_id == p && r.reservation_date == d && r.is_active)
      ++ (db.reservations.filter fun r =>
      r.attendees.contains p && r.reservation_date == d && r.is_active) := by
    rw [participatesB, Bool.or_eq_true] at hpart
    rcases hpart with h1 | h1
    · apply List.mem_append_left
      rw [List.mem_filter]
      refine ⟨hr, ?_⟩
      simp only [Bool.and_eq_true, beq_iff_eq]
      exact ⟨⟨by rwa [beq_iff_eq] at h1, hdate⟩, hact⟩
    · apply List.mem_append_right
      rw [List.mem_filter]
      refine ⟨hr, ?_⟩
      simp only [Bool.and_eq_true, beq_iff_eq]
      exact ⟨⟨h1, hdate⟩, hact⟩
  have hinj' : ∀ x ∈ (db.reservations.filter fun r =>
      r.eater_id == p && r.reservation_date == d && r.is_active)
      ++ (db.reservations.filter fun r =>
      r.attendees.contains p && r.reservation_date == d && r.is_active),
      ∀ y ∈ (db.reservations.filter fun r =>
      r.eater_id == p && r.reservation_date == d && r.is_active)
      ++ (db.reservations.filter fun r =>
      r.attendees.contains p && r.reservation_date == d && r.is_active),
      x.id = y.id → x = y := by
    intro x hx y hy
    apply hinj
    · rcases List.mem_append.mp hx with h' | h' <;> exact (List.mem_filter.mp h').1
    · rcases List.mem_append.mp hy with h' | h' <;> exact (List.mem_filter.mp h').1
  have hdedup := dedupById_mem hinj' hrin (List.not_mem_nil _)
  exact scanEaterConflicts_ok h r hdedup w hw

theorem check_eater_availability_err {env : Env} {db : DB} {p d : Nat}
    {starts ends : PyStr} {a b : PyTime} {m : Msg}
    (hs : parse_time_string starts = .ok a) (he : parse_time_string ends = .ok b)
    (h : check_eater_availability env db p d starts ends = .error m) :
    ∃ r ∈ db.reservations, participatesB p r = true
      ∧ r.reservation_date = d ∧ r.is_active = true
      ∧ ∃ w, resWindow? r = some w ∧ overlapB (a, b) w = true
      ∧ m = .eaterConflict (restaurantDisplayName env r.restaurant_id)
          r.restaurant_id r.reservation_start_time r.reservation_end_time := by
  rw [check_eater_availability, hs, he] at h
  dsimp only at h
  rcases scanEaterConflicts_err h with ⟨r, hrmem, w, hw, hov, hm⟩
  have hr' := dedupById_subset hrmem
  rcases List.mem_append.mp hr' with h1 | h1 <;>
    rcases List.mem_filter.mp h1 with ⟨hmem, hcond⟩
  · simp only [Bool.and_eq_true, beq_iff_eq] at hcond
    exact ⟨r, hmem,
      by rw [participatesB, Bool.or_eq_true, beq_iff_eq]; exact Or.inl hcond.1.1,
      hcond.1.2, hcond.2, w, hw, hov, hm⟩
  · simp only [Bool.and_eq_true, beq_iff_eq] at hcond
    exact ⟨r, hmem, by rw [participatesB, Bool.or_eq_true]; exact Or.inr hcond.1.1,
      hcond.1.2, hcond.2, w, hw, hov, hm⟩

theorem check_attendees_availability_ok {env : Env} {db : DB} {eid d : Nat}
    {s e : PyStr} :
    ∀ {atts : List Eater}, check_attendees_availability env db eid d s e atts = .ok () →
      ∀ a ∈ atts, ¬ a.id = eid → check_eater_availability env db a.id d s e = .ok () := by
  intro atts
  induction atts with
  | nil =>
    intro _ a ha
    cases ha
  | cons x xs ih =>
    intro h a ha hne
    rw [check_attendees_availability] at h
    split_ifs at h with hx
    · rcases List.mem_cons.mp ha with h' | h'
      · rw [beq_iff_eq] at hx
        rw [h'] at hne
        exact absurd hx hne
      · exact ih h a h' hne
    · cases hc : check_eater_availability env db x.id d s e with
      | error m => rw [hc] at h; cases h
      | ok u =>
        rw [hc] at h
        dsimp only at h
        rcases List.mem_cons.mp ha with h' | h'
        · rw [h']
          cases u
          exact hc
        · exact ih h a h' hne

theorem check_attendees_availability_err {env : Env} {db : DB} {eid d : Nat}
    {s e : PyStr} :
    ∀ {atts : List Eater} {m : Msg},
      check_attendees_availability env db eid d s e atts = .error m →
      ∃ a ∈ atts, ¬ a.id = eid ∧ ∃ m',
        check_eater_availability env db a.id d s e = .error m'
        ∧ m = .attendeeConflict a.name m' := by
  intro atts
  induction atts with
  | nil =>
    intro m h
    rw [check_attendees_availability] at h
    cases h
  | cons x xs ih =>
    intro m h
    rw [check_attendees_availability] at h
    split_ifs at h with hx
    · rcases ih h with ⟨a, ha, hne, m', hc, hm⟩
      exact ⟨a, List.mem_cons_of_mem x ha, hne, m', hc, hm⟩
    · cases hc : check_eater_availability env db x.id d s e with
      | error m0 =>
        rw [hc] at h
        cases h
        exact ⟨x, List.mem_cons_self x xs, by rwa [beq_iff_eq] at hx, m0, hc, rfl⟩
      | ok u =>
        rw [hc] at h
        dsimp only at h
        rcases ih h with ⟨a, ha, hne, m', hc', hm⟩
        exact ⟨a, List.mem_cons_of_mem x ha, hne, m', hc', hm⟩

/-! ## The store invariant and its preservation -/

theorem isEmpty_false_of_ne_nil {l : PyStr} (h : l ≠ []) : l.isEmpty = false := by
  cases l with
  | nil => exact absurd rfl h
  | cons c cs => rfl

theorem Inv.empty (env : Env) : Inv env emptyDB := by
  constructor <;> intro r hr <;> simp [emptyDB] at hr

theorem Inv.snoc {env : Env} {db : DB} (hInv : Inv env db) {newRes : Reservation}
    (hid : newRes.id = db.next_id)
    (hparse : (resWindow? newRes).isSome = true)
    (htable : ∃ t ∈ env.tables, t.id = newRes.table_id
      ∧ t.restaurant_id = newRes.restaurant_id)
    (hnoTable : ∀ r ∈ db.reservations, r.is_active = true → newRes.is_active = true →
        r.table_id = newRes.table_id → r.reservation_date = newRes.reservation_date →
        resOverlapB r newRes = false ∧ resOverlapB newRes r = false)
    (hnoPerson : ∀ r ∈ db.reservations, r.is_active = true → newRes.is_active = true →
        r.reservation_date = newRes.reservation_date →
        ∀ p, participatesB p r = true → participatesB p newRes = true →
        resOverlapB r newRes = false ∧ resOverlapB newRes r = false) :
    Inv env ⟨db.reservations ++ [newRes], db.next_id + 1⟩ := by
  obtain ⟨idB, idU, pars, town, noT, noP⟩ := hInv
  have hfresh : ∀ r ∈ db.reservations, r.id ≠ newRes.id := by
    intro r hr
    have := idB r hr
    rw [hid]
    omega
  refine ⟨?_, ?_, ?_, ?_, ?_, ?_⟩
  · intro r hr
    rcases List.mem_append.mp hr with h | h
    · have := idB r h
      dsimp only
      omega
    · rw [List.mem_singleton.mp h, hid]
      dsimp only
      omega
  · intro r1 h1 r2 h2 h12
    rcases List.mem_append.mp h1 with ha | ha <;> rcases List.mem_append.mp h2 with hb | hb
    · exact idU r1 ha r2 hb h12
    · rw [List.mem_singleton.mp hb] at h12
      exact absurd h12 (hfresh r1 ha)
    · rw [List.mem_singleton.mp ha] at h12
      exact absurd h12.symm (hfresh r2 hb)
    · rw [List.mem_singleton.mp ha, List.mem_singleton.mp hb]
  · intro r hr
    rcases List.mem_append.mp hr with h | h
    · exact pars r h
    · rw [List.mem_singleton.mp h]
      exact hparse
  · intro r hr
    rcases List.mem_append.mp hr with h | h
    · exact town r h
    · rw [List.mem_singleton.mp h]
      exact htable
  · intro r1 h1 r2 h2 h12 hact1 hact2 htid hdat
    rcases List.mem_append.mp h1 with ha | ha <;> rcases List.mem_append.mp h2 with hb | hb
    · exact noT r1 ha r2 hb h12 hact1 hact2 htid hdat
    · rw [List.mem_singleton.mp hb] at hact2 htid hdat ⊢
      exact (hnoTable r1 ha hact1 hact2 htid hdat).1
    · rw [List.mem_singleton.mp ha] at hact1 htid hdat ⊢
      exact (hnoTable r2 hb hact2 hact1 htid.symm hdat.symm).2
    · rw [List.mem_singleton.mp ha, List.mem_singleton.mp hb] at h12
      exact absurd rfl h12
  · intro r1 h1 r2 h2 h12 hact1 hact2 hdat p hp1 hp2
    rcases List.mem_append.mp h1 with ha | ha <;> rcases List.mem_append.mp h2 with hb | hb
    · exact noP r1 ha r2 hb h12 hact1 hact2 hdat p hp1 hp2
    · rw [List.mem_singleton.mp hb] at hact2 hdat hp2 ⊢
      exact (hnoPerson r1 ha hact1 hact2 hdat p hp1 hp2).1
    · rw [List.mem_singleton.mp ha] at hact1 hdat hp1 ⊢
      exact (hnoPerson r2 hb hact2 hact1 hdat.symm p hp2 hp1).2
    · rw [List.mem_singleton.mp ha, List.mem_singleton.mp hb] at h12
      exact absurd rfl h12

/-- Non-overlap of a stored reservation with a new one, in both orders,
from the one-sided conflict check. -/
theorem noRes_overlap_pair {r newR : Reservation} {ts te : PyTime}
    (hwinNew : resWindow? newR = some (ts, te))
    (hreq : reqOverlapB ts te r = false) :
    resOverlapB r newR = false ∧ resOverlapB newR r = false := by
  cases hwr : resWindow? r with
  | none =>
    constructor
    · simp [resOverlapB, hwr]
    · simp [resOverlapB, hwr, hwinNew]
  | some w =>
    have h1 : overlapB (ts, te) w = false := by rwa [reqOverlapB_eq hwr] at hreq
    constructor
    · rw [resOverlapB_eq hwr hwinNew, overlapB_comm]
      exact h1
    · rw [resOverlapB_eq hwinNew hwr]
      exact h1

/-- `create_reservation` preserves the store invariant. -/
theorem create_reservation_inv (env : Env) (hEnv : EnvWF env) (now : PyTime)
    (commitOk : Bool) (eid rid : Nat) (dateIn : Option Nat) (start : PyStr)
    (ids : Option (List Nat)) (g : Nat) (db : DB) (hInv : Inv env db) :
    Inv env (create_reservation env now commitOk eid rid dateIn start ids g db).2 := by
  rw [create_reservation]
  dsimp only
  repeat' split
  all_goals try exact hInv
  rename_i xr restaurant heqr xh host heqh xa attendees heqa xd date_obj heqd
    xe ue heqe xf uf heqf xt table heqt hcommit
  obtain ⟨hdateIn, hrs, ts, hhours, hstart, hop, hcl⟩ := validate_reservation_time_ok heqd
  obtain ⟨te, hendparse⟩ :
      ∃ te, parse_time_string (calculate_end_time now start 2) = .ok te :=
    ⟨_, parse_calculate_end_time hstart now 2⟩
  have hendne : (calculate_end_time now start 2).isEmpty = false := by
    apply isEmpty_false_of_ne_nil
    rw [calculate_end_time_of_parse hstart now 2]
    exact fmtHHMM_ne_nil _ _
  rw [find_available_table] at heqt
  try dsimp only at heqt
  obtain ⟨htmem, htrid, htcap, htnoblock, htmin⟩ :=
    check_table_availability_ok env db now rid _ date_obj start _ hendne hstart
      hendparse heqt
  have hhostid : host.id = eid := getEater_some_id (validate_host_ok heqh)
  cases ue
  cases uf
  have hwin : resWindow? (create_reservation_object db.next_id eid rid table.id
      date_obj start (calculate_end_time now start 2)
      (party_size_of host attendees g) host attendees) = some (ts, te) := by
    simp only [resWindow?, create_reservation_object, hstart, hendparse]
  apply Inv.snoc hInv
  · rfl
  · rw [hwin]
    rfl
  · exact ⟨table, htmem, rfl, htrid⟩
  · -- no table double booking against the stored reservations
    intro r hr hract hnact htid hdate2
    simp only [create_reservation_object] at htid hdate2
    obtain ⟨t', ht'mem, ht'id, ht'rid⟩ := hInv.tableOwn r hr
    have hteq : table = t' := hEnv table htmem t' ht'mem (ht'id.trans htid).symm
    have hrrid : r.restaurant_id = rid := by
      rw [← ht'rid, ← hteq]
      exact htrid
    have hreq : reqOverlapB ts te r = false := by
      cases hcase : reqOverlapB ts te r with
      | false => rfl
      | true => exact absurd htid (htnoblock r hr hrrid hdate2 hract hcase)
    exact noRes_overlap_pair hwin hreq
  · -- no person double booking against the stored reservations
    intro r hr hract hnact hdate2 p hp1 hp2
    simp only [create_reservation_object] at hdate2
    simp only [participatesB, create_reservation_object, Bool.or_eq_true,
      beq_iff_eq] at hp2
    have hchecked : check_eater_availability env db p date_obj start
        (calculate_end_time now start 2) = .ok () := by
      rcases hp2 with hp2 | hp2
      · rw [← hp2]
        exact heqe
      · rw [List.contains, List.elem_iff, List.mem_cons] at hp2
        rcases hp2 with hp2 | hp2
        · rw [hp2, hhostid]
          exact heqe
        · rcases List.mem_map.mp hp2 with ⟨a, hafil, haid⟩
          rcases List.mem_filter.mp hafil with ⟨hamem, hane⟩
          rw [bne_iff_ne] at hane
          have hok := check_attendees_availability_ok heqf a hamem
            (by rw [← hhostid]; exact hane)
          rw [haid] at hok
          exact hok
    have hscan := check_eater_availability_ok hstart hendparse hInv.idUnique hchecked
    have hreq : reqOverlapB ts te r = false := by
      cases hwr : resWindow? r with
      | none => rw [reqOverlapB, hwr]
      | some w =>
        rw [reqOverlapB_eq hwr]
        exact hscan r hr hp1 hdate2 hract w hwr
    exact noRes_overlap_pair hwin hreq

/-- A soft delete (deactivating one row) preserves the store invariant. -/
theorem Inv.softDelete {env : Env} {db : DB} (hInv : Inv env db) (rid : Nat) :
    Inv env ⟨db.reservations.map (fun r =>
      if r.id == rid then { r with is_active := false } else r), db.next_id⟩ := by
  obtain ⟨idB, idU, pars, town, noT, noP⟩ := hInv
  have hid : ∀ r : Reservation,
      (if r.id == rid then { r with is_active := false } else r).id = r.id := by
    intro r
    split_ifs <;> rfl
  have hwin : ∀ r : Reservation,
      resWindow? (if r.id == rid then { r with is_active := false } else r)
        = resWindow? r := by
    intro r
    split_ifs <;> rfl
  have htid : ∀ r : Reservation,
      (if r.id == rid then { r with is_active := false } else r).table_id
        = r.table_id := by
    intro r
    split_ifs <;> rfl
  have hres : ∀ r : Reservation,
      (if r.id == rid then { r with is_active := false } else r).restaurant_id
        = r.restaurant_id := by
    intro r
    split_ifs <;> rfl
  have hdat : ∀ r : Reservation,
      (if r.id == rid then { r with is_active := false } else r).reservation_date
        = r.reservation_date := by
    intro r
    split_ifs <;> rfl
  have hact : ∀ r : Reservation,
      (if r.id == rid then { r with is_active := false } else r).is_active = true →
        r.is_active = true := by
    intro r
    split_ifs with h
    · intro hc
      simp at hc
    · exact id
  have hpart : ∀ (p : Nat) (r : Reservation),
      participatesB p (if r.id == rid then { r with is_active := false } else r)
        = participatesB p r := by
    intro p r
    split_ifs <;> rfl
  have hov : ∀ a b : Reservation,
      resOverlapB (if a.id == rid then { a with is_active := false } else a)
        (if b.id == rid then { b with is_active := false } else b)
        = resOverlapB a b := by
    intro a b
    rw [resOverlapB, resOverlapB, hwin a, hwin b]
  refine ⟨?_, ?_, ?_, ?_, ?_, ?_⟩
  · intro r hr
    rcases List.mem_map.mp hr with ⟨a, ha, rfl⟩
    rw [hid a]
    exact idB a ha
  · intro r1 h1 r2 h2 h12
    rcases List.mem_map.mp h1 with ⟨a, ha, rfl⟩
    rcases List.mem_map.mp h2 with ⟨b, hb, rfl⟩
    rw [hid a, hid b] at h12
    rw [idU a ha b hb h12]
  · intro r hr
    rcases List.mem_map.mp hr with ⟨a, ha, rfl⟩
    rw [hwin a]
    exact pars a ha
  · intro r hr
    rcases List.mem_map.mp hr with ⟨a, ha, rfl⟩
    rw [htid a, hres a]
    exact town a ha
  · intro r1 h1 r2 h2 h12 hact1 hact2 ht hd
    rcases List.mem_map.mp h1 with ⟨a, ha, rfl⟩
    rcases List.mem_map.mp h2 with ⟨b, hb, rfl⟩
    rw [hid a, hid b] at h12
    rw [htid a, htid b] at ht
    rw [hdat a, hdat b] at hd
    rw [hov a b]
    exact noT a ha b hb h12 (hact a hact1) (hact b hact2) ht hd
  · intro r1 h1 r2 h2 h12 hact1 hact2 hd p hp1 hp2
    rcases List.mem_map.mp h1 with ⟨a, ha, rfl⟩
    rcases List.mem_map.mp h2 with ⟨b, hb, rfl⟩
    rw [hid a, hid b] at h12
    rw [hdat a, hdat b] at hd
    rw [hpart p a] at hp1
    rw [hpart p b] at hp2
    rw [hov a b]
    exact noP a ha b hb h12 (hact a hact1) (hact b hact2) hd p hp1 hp2

/-- Removing rows (a hard delete) preserves the store invariant. -/
theorem Inv.filterRows {env : Env} {db : DB} (hInv : Inv env db)
    (p : Reservation → Bool) :
    Inv env ⟨db.reservations.filter p, db.next_id⟩ := by
  obtain ⟨idB, idU, pars, town, noT, noP⟩ := hInv
  refine ⟨?_, ?_, ?_, ?_, ?_, ?_⟩
  · intro r hr
    exact idB r (List.mem_of_mem_filter hr)
  · intro r1 h1 r2 h2 h12
    exact idU r1 (List.mem_of_mem_filter h1) r2 (List.mem_of_mem_filter h2) h12
  · intro r hr
    exact pars r (List.mem_of_mem_filter hr)
  · intro r hr
    exact town r (List.mem_of_mem_filter hr)
  · intro r1 h1 r2 h2 h12 hact1 hact2 ht hd
    exact noT r1 (List.mem_of_mem_filter h1) r2 (List.mem_of_mem_filter h2)
      h12 hact1 hact2 ht hd
  · intro r1 h1 r2 h2 h12 hact1 hact2 hd q hq1 hq2
    exact noP r1 (List.mem_of_mem_filter h1) r2 (List.mem_of_mem_filter h2)
      h12 hact1 hact2 hd q hq1 hq2

/-- `delete_reservation` preserves the store invariant. -/
theorem delete_reservation_inv (env : Env) (commitOk : Bool) (rid : Nat)
    (soft : Bool) (db : DB) (hInv : Inv env db) :
    Inv env (delete_reservation commitOk rid soft db).2 := by
  rw [delete_reservation]
  cases hf : db.reservations.find? (fun r => r.id == rid) with
  | none => exact hInv
  | some r0 =>
    dsimp only
    split_ifs with h1 h2
    · exact hInv
    · exact hInv.softDelete rid
    · exact hInv.filterRows _

/-- Every API call preserves the store invariant. -/
theorem applyOp_inv (env : Env) (hEnv : EnvWF env) (db : DB) (hInv : Inv env db)
    (op : Op) : Inv env (applyOp env db op) := by
  cases op with
  | create now commitOk eid rid dateIn start ids g =>
    exact create_reservation_inv env hEnv now commitOk eid rid dateIn start ids g db hInv
  | delete commitOk rid soft =>
    exact delete_reservation_inv env commitOk rid soft db hInv

/-- The store invariant holds of every reachable store. -/
theorem reachable_inv {env : Env} {db : DB} (hEnv : EnvWF env)
    (h : Reachable env db) : Inv env db := by
  rcases h with ⟨ops, rfl⟩
  rw [runOps]
  have haux : ∀ (ops : List Op) (db0 : DB), Inv env db0 →
      Inv env (ops.foldl (applyOp env) db0) := by
    intro ops
    induction ops with
    | nil => intro db0 h0; exact h0
    | cons op rest ih =>
      intro db0 h0
      rw [List.foldl_cons]
      exact ih (applyOp env db0 op) (applyOp_inv env hEnv db0 h0 op)
  exact haux ops emptyDB (Inv.empty env)

/-- C1: in every store reachable from the empty store by create and delete
calls (over schema-valid static data), all stored windows parse, and no
two distinct active reservations sharing a table and a date have
overlapping [start, end) windows. -/
theorem claim_C1_no_table_double_booking (env : Env) (db : DB)
    (hEnv : EnvWF env) (hReach : Reachable env db) :
    (∀ r ∈ db.reservations, (resWindow? r).isSome = true)
    ∧ ∀ r1 ∈ db.reservations, ∀ r2 ∈ db.reservations, r1 ≠ r2 →
        r1.is_active = true → r2.is_active = true →
        r1.table_id = r2.table_id → r1.reservation_date = r2.reservation_date →
        resOverlapB r1 r2 = false := by
  have hInv := reachable_inv hEnv hReach
  refine ⟨hInv.parses, ?_⟩
  intro r1 h1 r2 h2 hne hact1 hact2 ht hd
  have hid : r1.id ≠ r2.id := fun hc => hne (hInv.idUnique r1 h1 r2 h2 hc)
  exact hInv.noTable r1 h1 r2 h2 hid hact1 hact2 ht hd

/-- Witness for C1 on a concrete two-booking history at the same
restaurant and date. -/
theorem claim_C1_no_table_double_booking_witness :
    EnvWF wEnv
    ∧ ((∀ r ∈ (runOps wEnv
        [.create ⟨0, 0⟩ true 1 10 (some 5) ['1', '8', ':', '0', '0'] none 1,
         .create ⟨0, 0⟩ true 2 10 (some 5) ['1', '9', ':', '0', '0'] none 3]).reservations,
        (resWindow? r).isSome = true)
      ∧ ∀ r1 ∈ (runOps wEnv
        [.create ⟨0, 0⟩ true 1 10 (some 5) ['1', '8', ':', '0', '0'] none 1,
         .create ⟨0, 0⟩ true 2 10 (some 5) ['1', '9', ':', '0', '0'] none 3]).reservations,
        ∀ r2 ∈ (runOps wEnv
        [.create ⟨0, 0⟩ true 1 10 (some 5) ['1', '8', ':', '0', '0'] none 1,
         .create ⟨0, 0⟩ true 2 10 (some 5) ['1', '9', ':', '0', '0'] none 3]).reservations,
        r1 ≠ r2 → r1.is_active = true → r2.is_active = true →
        r1.table_id = r2.table_id → r1.reservation_date = r2.reservation_date →
        resOverlapB r1 r2 = false) :=
  ⟨by unfold EnvWF; decide,
   claim_C1_no_table_double_booking wEnv _ (by unfold EnvWF; decide)
     ⟨[.create ⟨0, 0⟩ true 1 10 (some 5) ['1', '8', ':', '0', '0'] none 1,
       .create ⟨0, 0⟩ true 2 10 (some 5) ['1', '9', ':', '0', '0'] none 3], rfl⟩⟩

/-- C4: on any reachable store, the allocator returns a minimal-capacity
table among the restaurant's tables that fit the party and have no
overlapping active reservation on the date; it reports the distinct
party-size failure exactly when no table fits the party, and the distinct
no-table-at-that-time failure exactly when fitting tables exist but every
one has a conflicting active reservation. -/
theorem claim_C4_best_fit_allocation (env : Env) (db : DB)
    (hEnv : EnvWF env) (hReach : Reachable env db)
    (now : PyTime) (rid n d : Nat) (start endS : PyStr) (ts te : PyTime)
    (hne : endS.isEmpty = false)
    (hstart : parse_time_string start = .ok ts)
    (hend : parse_time_string endS = .ok te) :
    (∀ t, check_table_availability env db now rid n d start (some endS) = .ok t →
        t ∈ env.tables ∧ t.restaurant_id = rid ∧ n ≤ t.capacity
        ∧ ¬ tableBlocked db d ts te t
        ∧ ∀ t' ∈ env.tables, t'.restaurant_id = rid → n ≤ t'.capacity →
            ¬ tableBlocked db d ts te t' → t.capacity ≤ t'.capacity)
    ∧ (check_table_availability env db now rid n d start (some endS)
        = .error .noTablesForPartySize
      ↔ ¬ ∃ t ∈ env.tables, t.restaurant_id = rid ∧ n ≤ t.capacity)
    ∧ (check_table_availability env db now rid n d start (some endS)
        = .error .noTablesAtTime
      ↔ (∃ t ∈ env.tables, t.restaurant_id = rid ∧ n ≤ t.capacity)
        ∧ ∀ t ∈ env.tables, t.restaurant_id = rid → n ≤ t.capacity →
            tableBlocked db d ts te t) := by
  have hInv := reachable_inv hEnv hReach
  have hblock : ∀ t ∈ env.tables, t.restaurant_id = rid →
      (tableBlocked db d ts te t ↔
        ∃ r ∈ db.reservations, r.restaurant_id = rid ∧ r.reservation_date = d
          ∧ r.is_active = true ∧ reqOverlapB ts te r = true ∧ r.table_id = t.id) := by
    intro t htm htr
    constructor
    · rintro ⟨r, hr, hdat, hact, hov, htid⟩
      obtain ⟨t', ht'mem, ht'id, ht'rid⟩ := hInv.tableOwn r hr
      have hteq : t = t' := hEnv t htm t' ht'mem (ht'id.trans htid).symm
      refine ⟨r, hr, ?_, hdat, hact, hov, htid⟩
      rw [← ht'rid, ← hteq]
      exact htr
    · rintro ⟨r, hr, _, hdat, hact, hov, htid⟩
      exact ⟨r, hr, hdat, hact, hov, htid⟩
  refine ⟨?_, ?_, ?_⟩
  · intro t hok
    obtain ⟨htm, htr, htc, hnoblk, hmin⟩ :=
      check_table_availability_ok env db now rid n d start endS hne hstart hend hok
    refine ⟨htm, htr, htc, ?_, ?_⟩
    · rw [hblock t htm htr]
      rintro ⟨r, hr, h1, h2, h3, h4, h5⟩
      exact hnoblk r hr h1 h2 h3 h4 h5
    · intro t' ht'm ht'r ht'c ht'free
      apply hmin t' ht'm ht'r ht'c
      intro r hr h1 h2 h3 h4 h5
      exact ht'free ((hblock t' ht'm ht'r).mpr ⟨r, hr, h1, h2, h3, h4, h5⟩)
  · exact check_table_availability_no_size env db now rid n d start endS hne hstart hend
  · rw [check_table_availability_no_time env db now rid n d start endS hne hstart hend]
    constructor
    · rintro ⟨hex, hall⟩
      refine ⟨hex, ?_⟩
      intro t htm htr htc
      exact (hblock t htm htr).mpr (hall t htm htr htc)
    · rintro ⟨hex, hall⟩
      refine ⟨hex, ?_⟩
      intro t htm htr htc
      exact (hblock t htm htr).mp (hall t htm htr htc)

/-- Witness for C4 on a concrete one-booking history: party of 3 at the
restaurant with free tables of capacities 2 and 4. -/
theorem claim_C4_best_fit_allocation_witness :
    EnvWF wEnv
    ∧ (['2', '1', ':', '0', '0'] : PyStr).isEmpty = false
    ∧ parse_time_string ['1', '9', ':', '0', '0'] = .ok ⟨19, 0⟩
    ∧ parse_time_string ['2', '1', ':', '0', '0'] = .ok ⟨21, 0⟩
    ∧ (∀ t, check_table_availability wEnv
        (runOps wEnv [.create ⟨0, 0⟩ true 1 10 (some 5) ['1', '8', ':', '0', '0'] none 1])
        ⟨0, 0⟩ 10 3 5 ['1', '9', ':', '0', '0'] (some ['2', '1', ':', '0', '0']) = .ok t →
        t ∈ wEnv.tables ∧ t.restaurant_id = 10 ∧ 3 ≤ t.capacity
        ∧ ¬ tableBlocked (runOps wEnv
            [.create ⟨0, 0⟩ true 1 10 (some 5) ['1', '8', ':', '0', '0'] none 1])
            5 ⟨19, 0⟩ ⟨21, 0⟩ t
        ∧ ∀ t' ∈ wEnv.tables, t'.restaurant_id = 10 → 3 ≤ t'.capacity →
            ¬ tableBlocked (runOps wEnv
              [.create ⟨0, 0⟩ true 1 10 (some 5) ['1', '8', ':', '0', '0'] none 1])
              5 ⟨19, 0⟩ ⟨21, 0⟩ t' → t.capacity ≤ t'.capacity)
      ∧ (check_table_availability wEnv
          (runOps wEnv [.create ⟨0, 0⟩ true 1 10 (some 5) ['1', '8', ':', '0', '0'] none 1])
          ⟨0, 0⟩ 10 3 5 ['1', '9', ':', '0', '0'] (some ['2', '1', ':', '0', '0'])
          = .error .noTablesForPartySize
        ↔ ¬ ∃ t ∈ wEnv.tables, t.restaurant_id = 10 ∧ 3 ≤ t.capacity)
      ∧ (check_table_availability wEnv
          (runOps wEnv [.create ⟨0, 0⟩ true 1 10 (some 5) ['1', '8', ':', '0', '0'] none 1])
          ⟨0, 0⟩ 10 3 5 ['1', '9', ':', '0', '0'] (some ['2', '1', ':', '0', '0'])
          = .error .noTablesAtTime
        ↔ (∃ t ∈ wEnv.tables, t.restaurant_id = 10 ∧ 3 ≤ t.capacity)
          ∧ ∀ t ∈ wEnv.tables, t.restaurant_id = 10 → 3 ≤ t.capacity →
              tableBlocked (runOps wEnv
                [.create ⟨0, 0⟩ true 1 10 (some 5) ['1', '8', ':', '0', '0'] none 1])
                5 ⟨19, 0⟩ ⟨21, 0⟩ t) :=
  ⟨by unfold EnvWF; decide, rfl, rfl, rfl,
   claim_C4_best_fit_allocation wEnv _ (by unfold EnvWF; decide)
     ⟨[.create ⟨0, 0⟩ true 1 10 (some 5) ['1', '8', ':', '0', '0'] none 1], rfl⟩
     ⟨0, 0⟩ 10 3 5 ['1', '9', ':', '0', '0'] ['2', '1', ':', '0', '0'] ⟨19, 0⟩ ⟨21, 0⟩
     rfl rfl rfl⟩

/-- C2: in every reachable store, no person is double-booked (as host or
attendee), and any attempt to create such an overlap fails with a conflict
message naming the existing reservation's restaurant and window. -/
theorem claim_C2_no_person_double_booking (env : Env) (db : DB)
    (hEnv : EnvWF env) (hReach : Reachable env db) :
    NoPersonDoubleBooking db ∧ ConflictRejects env db := by
  have hInv := reachable_inv hEnv hReach
  constructor
  · simp only [NoPersonDoubleBooking]
    intro r1 h1 r2 h2 hne hact1 hact2 hd p hp1 hp2
    have hid : r1.id ≠ r2.id := fun hc => hne (hInv.idUnique r1 h1 r2 h2 hc)
    exact hInv.noPerson r1 h1 r2 h2 hid hact1 hact2 hd p hp1 hp2
  · simp only [ConflictRejects]
    intro now ok eid rid d start ids g restaurant ts te hrest hhost hatts htime
      hpstart hpend hconf
    obtain ⟨host, hhosteq⟩ : ∃ h, validate_host env eid = .ok h := by
      cases hv : validate_host env eid with
      | error m => rw [hv] at hhost; cases hhost
      | ok h => exact ⟨h, rfl⟩
    obtain ⟨attendees, hattseq⟩ :
        ∃ a, validate_attendees env (ids.getD []) = .ok a := by
      cases hv : validate_attendees env (ids.getD []) with
      | error m => rw [hv] at hatts; cases hatts
      | ok a => exact ⟨a, rfl⟩
    have hhostid : host.id = eid := getEater_some_id (validate_host_ok hhosteq)
    obtain ⟨hmap, hmematt⟩ := validate_attendees_ok env (ids.getD []) attendees hattseq
    rcases hconf with ⟨r, hr, hract, hrdate, ⟨p, hpsrc, hppart⟩, w, hw, hov⟩
    rw [create_reservation]
    dsimp only
    simp only [hrest, hhosteq, hattseq, htime]
    cases hce : check_eater_availability env db eid d start
        (calculate_end_time now start 2) with
    | error m =>
      simp only [hce]
      rcases check_eater_availability_err hpstart hpend hce with
        ⟨r', hr', hpart', hdate', hact', w', hw', hov', hm⟩
      refine ⟨by trivial, r', hr', hact', hdate', ?_⟩
      rw [hm]
      simp [conflictMsgNames]
    | ok u =>
      cases u
      simp only [hce]
      cases hca : check_attendees_availability env db eid d start
          (calculate_end_time now start 2) attendees with
      | error m =>
        simp only [hca]
        rcases check_attendees_availability_err hca with ⟨a, hamem, hane, m', hce', hm⟩
        rcases check_eater_availability_err hpstart hpend hce' with
          ⟨r', hr', hpart', hdate', hact', w', hw', hov', hm'⟩
        refine ⟨by trivial, r', hr', hact', hdate', ?_⟩
        rw [hm, hm']
        simp [conflictMsgNames]
      | ok u2 =>
        exfalso
        cases u2
        by_cases hpe : p = eid
        · have hnool := check_eater_availability_ok hpstart hpend hInv.idUnique hce
            r hr (hpe ▸ hppart) hrdate hract w hw
          rw [hnool] at hov
          cases hov
        · have hpin : p ∈ ids.getD [] := by
            rcases hpsrc with h | h
            · exact absurd h hpe
            · exact h
          rw [← hmap] at hpin
          rcases List.mem_map.mp hpin with ⟨a, hamem, haid⟩
          have hane : ¬ a.id = eid := by
            rw [haid]
            exact hpe
          have hok := check_attendees_availability_ok hca a hamem hane
          have hnool := check_eater_availability_ok hpstart hpend hInv.idUnique hok
            r hr (by rw [haid]; exact hppart) hrdate hract w hw
          rw [hnool] at hov
          cases hov

/-- Witness for C2 on a concrete one-booking history. -/
theorem claim_C2_no_person_double_booking_witness :
    EnvWF wEnv
    ∧ (NoPersonDoubleBooking (runOps wEnv
        [.create ⟨0, 0⟩ true 1 10 (some 5) ['1', '8', ':', '0', '0'] none 1])
      ∧ ConflictRejects wEnv (runOps wEnv
        [.create ⟨0, 0⟩ true 1 10 (some 5) ['1', '8', ':', '0', '0'] none 1])) :=
  ⟨by unfold EnvWF; decide,
   claim_C2_no_person_double_booking wEnv _ (by unfold EnvWF; decide)
     ⟨[.create ⟨0, 0⟩ true 1 10 (some 5) ['1', '8', ':', '0', '0'] none 1], rfl⟩⟩

/-! ## Soft delete and the conflict checks -/

theorem filter_erase {l : List Reservation} {rid : Nat} {q : Reservation → Bool}
    (hq : ∀ r ∈ l, q r = true → r.id ≠ rid) :
    (l.filter fun r => r.id != rid).filter q = l.filter q := by
  induction l with
  | nil => rfl
  | cons x xs ih =>
    have hq' : ∀ r ∈ xs, q r = true → r.id ≠ rid :=
      fun r hr => hq r (List.mem_cons_of_mem x hr)
    by_cases hx : x.id = rid
    · have hqx : q x = false := by
        cases hcase : q x with
        | false => rfl
        | true => exact absurd hx (hq x (List.mem_cons_self x xs) hcase)
      have hbx : (x.id != rid) = false := by simp [hx]
      simp [List.filter_cons, hbx, hqx, ih hq']
    · have hbx : (x.id != rid) = true := by simp [hx]
      simp [List.filter_cons, hbx, ih hq']

/-- Reservations whose id is only held by inactive rows do not influence
`check_eater_availability`: removing them entirely gives the same
result. -/
theorem check_eater_availability_erase (env : Env) (dbx : DB) (rid : Nat)
    (hin : ∀ r ∈ dbx.reservations, r.is_active = true → r.id ≠ rid)
    (p d : Nat) (s e : PyStr) :
    check_eater_availability env (eraseReservation rid dbx) p d s e
      = check_eater_availability env dbx p d s e := by
  rw [check_eater_availability, check_eater_availability]
  have h1 : (eraseReservation rid dbx).reservations.filter (fun r =>
      r.eater_id == p && r.reservation_date == d && r.is_active)
      = dbx.reservations.filter (fun r =>
      r.eater_id == p && r.reservation_date == d && r.is_active) := by
    rw [eraseReservation]
    apply filter_erase
    intro r hr hqr
    rw [Bool.and_eq_true] at hqr
    exact hin r hr hqr.2
  have h2 : (eraseReservation rid dbx).reservations.filter (fun r =>
      r.attendees.contains p && r.reservation_date == d && r.is_active)
      = dbx.reservations.filter (fun r =>
      r.attendees.contains p && r.reservation_date == d && r.is_active) := by
    rw [eraseReservation]
    apply filter_erase
    intro r hr hqr
    rw [Bool.and_eq_true] at hqr
    exact hin r hr hqr.2
  rw [h1, h2]

/-- Reservations whose id is only held by inactive rows do not influence
`check_table_availability` either. -/
theorem check_table_availability_erase (env : Env) (dbx : DB) (rid : Nat)
    (hin : ∀ r ∈ dbx.reservations, r.is_active = true → r.id ≠ rid)
    (now : PyTime) (rrid n d : Nat) (s : PyStr) (eS : Option PyStr) :
    check_table_availability env (eraseReservation rid dbx) now rrid n d s eS
      = check_table_availability env dbx now rrid n d s eS := by
  rw [check_table_availability.eq_def, check_table_availability.eq_def]
  have h1 : (eraseReservation rid dbx).reservations.filter (fun r =>
      r.restaurant_id == rrid && r.reservation_date == d && r.is_active)
      = dbx.reservations.filter (fun r =>
      r.restaurant_id == rrid && r.reservation_date == d && r.is_active) := by
    rw [eraseReservation]
    apply filter_erase
    intro r hr hqr
    rw [Bool.and_eq_true] at hqr
    exact hin r hr hqr.2
  rw [h1]

theorem check_attendees_availability_erase (env : Env) (dbx : DB) (rid : Nat)
    (hin : ∀ r ∈ dbx.reservations, r.is_active = true → r.id ≠ rid)
    (eid d : Nat) (s e : PyStr) :
    ∀ atts, check_attendees_availability env (eraseReservation rid dbx) eid d s e atts
      = check_attendees_availability env dbx eid d s e atts := by
  intro atts
  induction atts with
  | nil => rfl
  | cons a rest ih =>
    rw [check_attendees_availability, check_attendees_availability]
    split_ifs with ha
    · exact ih
    · rw [check_eater_availability_erase env dbx rid hin, ih]

/-- The result triple of `create_reservation` is unchanged when rows whose
id is only held inactive are removed from the store. -/
theorem create_reservation_erase (env : Env) (dbx : DB) (rid : Nat)
    (hin : ∀ r ∈ dbx.reservations, r.is_active = true → r.id ≠ rid)
    (now : PyTime) (ok : Bool) (eid rrid : Nat) (dIn : Option Nat) (s : PyStr)
    (ids : Option (List Nat)) (g : Nat) :
    (create_reservation env now ok eid rrid dIn s ids g (eraseReservation rid dbx)).1
      = (create_reservation env now ok eid rrid dIn s ids g dbx).1 := by
  rw [create_reservation, create_reservation]
  dsimp only
  cases h1 : validate_restaurant env rrid with
  | error m => rfl
  | ok restaurant =>
    cases h2 : validate_host env eid with
    | error m => rfl
    | ok host =>
      cases h3 : validate_attendees env (ids.getD []) with
      | error m => rfl
      | ok attendees =>
        dsimp only
        cases h4 : validate_reservation_time restaurant dIn s with
        | error m => rfl
        | ok date_obj =>
          dsimp only
          rw [check_eater_availability_erase env dbx rid hin]
          cases h5 : check_eater_availability env dbx eid date_obj s
              (calculate_end_time now s 2) with
          | error m => rfl
          | ok u =>
            dsimp only
            rw [check_attendees_availability_erase env dbx rid hin]
            cases h6 : check_attendees_availability env dbx eid date_obj s
                (calculate_end_time now s 2) attendees with
            | error m => rfl
            | ok u2 =>
              dsimp only
              rw [find_available_table, find_available_table]
              rw [check_table_availability_erase env dbx rid hin]
              cases h7 : check_table_availability env dbx now rrid
                  (party_size_of host attendees g) date_obj s
                  (some (calculate_end_time now s 2)) with
              | error m => rfl
              | ok table =>
                dsimp only
                split_ifs with hok <;> rfl

/-- C8: a successful soft delete marks the reservation inactive; the
deactivated row is then excluded from every conflict check and
table-availability check — each check, and the result of a new
`create_reservation` call, is exactly what it would be were the row
removed outright — so a new booking for the freed person/table/window
succeeds whenever it would succeed with the row gone. -/
theorem claim_C8_soft_delete_frees (env : Env) (db : DB) (rid : Nat)
    (hsucc : (delete_reservation true rid true db).1.1 = true) :
    (∃ r ∈ (delete_reservation true rid true db).2.reservations,
        r.id = rid ∧ r.is_active = false)
    ∧ (∀ (p d : Nat) (s e : PyStr),
        check_eater_availability env
            (eraseReservation rid (delete_reservation true rid true db).2) p d s e
          = check_eater_availability env (delete_reservation true rid true db).2 p d s e)
    ∧ (∀ (now : PyTime) (rrid n d : Nat) (s : PyStr) (eS : Option PyStr),
        check_table_availability env
            (eraseReservation rid (delete_reservation true rid true db).2) now rrid n d s eS
          = check_table_availability env (delete_reservation true rid true db).2
              now rrid n d s eS)
    ∧ (∀ (now : PyTime) (ok : Bool) (eid rrid : Nat) (dIn : Option Nat) (s : PyStr)
        (ids : Option (List Nat)) (g : Nat),
        (create_reservation env now ok eid rrid dIn s ids g
            (eraseReservation rid (delete_reservation true rid true db).2)).1
          = (create_reservation env now ok eid rrid dIn s ids g
            (delete_reservation true rid true db).2).1
        ∧ ((create_reservation env now ok eid rrid dIn s ids g
            (eraseReservation rid (delete_reservation true rid true db).2)).1.1 = true →
           (create_reservation env now ok eid rrid dIn s ids g
            (delete_reservation true rid true db).2).1.1 = true)) := by
  obtain ⟨r0, hfind⟩ : ∃ r0, db.reservations.find? (fun r => r.id == rid) = some r0 := by
    cases hf : db.reservations.find? (fun r => r.id == rid) with
    | none =>
      rw [delete_reservation, hf] at hsucc
      cases hsucc
    | some r0 => exact ⟨r0, rfl⟩
  have hdb' : (delete_reservation true rid true db).2
      = ⟨db.reservations.map (fun r =>
          if r.id == rid then { r with is_active := false } else r), db.next_id⟩ := by
    rw [delete_reservation, hfind]
    rfl
  have hin : ∀ r ∈ (delete_reservation true rid true db).2.reservations,
      r.is_active = true → r.id ≠ rid := by
    rw [hdb']
    intro r hr hact
    rcases List.mem_map.mp hr with ⟨a, ha, rfl⟩
    by_cases hid : a.id = rid
    · exfalso
      rw [if_pos (by rw [beq_iff_eq]; exact hid)] at hact
      simp at hact
    · rw [if_neg (by rw [beq_iff_eq]; exact hid)]
      exact hid
  refine ⟨?_, ?_, ?_, ?_⟩
  · have hr0mem : r0 ∈ db.reservations := List.mem_of_find?_eq_some hfind
    have hr0id : r0.id = rid := by
      have := List.find?_some hfind
      rwa [beq_iff_eq] at this
    rw [hdb']
    refine ⟨{ r0 with is_active := false }, ?_, hr0id, rfl⟩
    have : (if r0.id == rid then { r0 with is_active := false } else r0)
        = { r0 with is_active := false } := by
      rw [if_pos (by rw [beq_iff_eq]; exact hr0id)]
    rw [← this]
    exact List.mem_map_of_mem _ hr0mem
  · intro p d s e
    exact check_eater_availability_erase env _ rid hin p d s e
  · intro now rrid n d s eS
    exact check_table_availability_erase env _ rid hin now rrid n d s eS
  · intro now ok eid rrid dIn s ids g
    refine ⟨create_reservation_erase env _ rid hin now ok eid rrid dIn s ids g, ?_⟩
    intro hsc
    rw [← create_reservation_erase env _ rid hin now ok eid rrid dIn s ids g]
    exact hsc

/-- Witness for C8: soft-deleting the only reservation of a one-booking
history succeeds and the conclusion holds of the resulting store. -/
theorem claim_C8_soft_delete_frees_witness :
    (delete_reservation true 0 true (runOps wEnv
      [.create ⟨0, 0⟩ true 1 10 (some 5) ['1', '8', ':', '0', '0'] none 1])).1.1 = true
    ∧ ((∃ r ∈ (delete_reservation true 0 true (runOps wEnv
        [.create ⟨0, 0⟩ true 1 10 (some 5) ['1', '8', ':', '0', '0'] none 1])).2.reservations,
        r.id = 0 ∧ r.is_active = false)
    ∧ (∀ (p d : Nat) (s e : PyStr),
        check_eater_availability wEnv
            (eraseReservation 0 (delete_reservation true 0 true (runOps wEnv
              [.create ⟨0, 0⟩ true 1 10 (some 5) ['1', '8', ':', '0', '0'] none 1])).2) p d s e
          = check_eater_availability wEnv (delete_reservation true 0 true (runOps wEnv
              [.create ⟨0, 0⟩ true 1 10 (some 5) ['1', '8', ':', '0', '0'] none 1])).2 p d s e)
    ∧ (∀ (now : PyTime) (rrid n d : Nat) (s : PyStr) (eS : Option PyStr),
        check_table_availability wEnv
            (eraseReservation 0 (delete_reservation true 0 true (runOps wEnv
              [.create ⟨0, 0⟩ true 1 10 (some 5) ['1', '8', ':', '0', '0'] none 1])).2)
            now rrid n d s eS
          = check_table_availability wEnv (delete_reservation true 0 true (runOps wEnv
              [.create ⟨0, 0⟩ true 1 10 (some 5) ['1', '8', ':', '0', '0'] none 1])).2
              now rrid n d s eS)
    ∧ (∀ (now : PyTime) (ok : Bool) (eid rrid : Nat) (dIn : Option Nat) (s : PyStr)
        (ids : Option (List Nat)) (g : Nat),
        (create_reservation wEnv now ok eid rrid dIn s ids g
            (eraseReservation 0 (delete_reservation true 0 true (runOps wEnv
              [.create ⟨0, 0⟩ true 1 10 (some 5) ['1', '8', ':', '0', '0'] none 1])).2)).1
          = (create_reservation wEnv now ok eid rrid dIn s ids g
            (delete_reservation true 0 true (runOps wEnv
              [.create ⟨0, 0⟩ true 1 10 (some 5) ['1', '8', ':', '0', '0'] none 1])).2).1
        ∧ ((create_reservation wEnv now ok eid rrid dIn s ids g
            (eraseReservation 0 (delete_reservation true 0 true (runOps wEnv
              [.create ⟨0, 0⟩ true 1 10 (some 5) ['1', '8', ':', '0', '0'] none 1])).2)).1.1 = true →
           (create_reservation wEnv now ok eid rrid dIn s ids g
            (delete_reservation true 0 true (runOps wEnv
              [.create ⟨0, 0⟩ true 1 10 (some 5) ['1', '8', ':', '0', '0'] none 1])).2).1.1 = true))) :=
  ⟨by decide,
   claim_C8_soft_delete_frees wEnv (runOps wEnv
     [.create ⟨0, 0⟩ true 1 10 (some 5) ['1', '8', ':', '0', '0'] none 1]) 0 (by decide)⟩

/-! ## Agreement of the availability search with the booking allocator -/

theorem resWindow?_rendered {r : Reservation} {a b : PyTime}
    (ha : ValidTime a) (hb : ValidTime b)
    (h1 : r.reservation_start_time = a.render)
    (h2 : r.reservation_end_time = b.render) :
    resWindow? r = some (a, b) := by
  rw [resWindow?, h1, h2, parse_render ha, parse_render hb]

theorem render_isEmpty {t : PyTime} (h : ValidTime t) :
    (PyTime.render t).isEmpty = false := by
  obtain ⟨h1, h2⟩ := h
  rw [render_eq ⟨h1, h2⟩]
  rfl

/-- The allocator succeeds exactly when some table of the restaurant seats
the party and has no conflicting active reservation there on that date. -/
theorem check_table_availability_isOk (env : Env) (db : DB) (now : PyTime)
    (rid n d : Nat) (start endS : PyStr) {ts te : PyTime}
    (hne : endS.isEmpty = false)
    (hstart : parse_time_string start = .ok ts)
    (hend : parse_time_string endS = .ok te) :
    (check_table_availability env db now rid n d start (some endS)).isOk = true
    ↔ ∃ t ∈ env.tables, t.restaurant_id = rid ∧ n ≤ t.capacity ∧
        ∀ r ∈ db.reservations, r.restaurant_id = rid → r.reservation_date = d →
          r.is_active = true → reqOverlapB ts te r = true → r.table_id ≠ t.id := by
  rw [check_table_availability_unfold env db now rid n d start endS hne hstart hend]
  split_ifs with hemp
  · rw [sortByCapacity_isEmpty, List.isEmpty_iff, List.filter_eq_nil_iff] at hemp
    constructor
    · intro h
      simp only [Except.isOk, Except.toBool, Bool.false_eq_true] at h
    · rintro ⟨t, htm, h1, h2, _⟩
      exfalso
      have := hemp t htm
      rw [Bool.and_eq_true, beq_iff_eq, decide_eq_true_eq] at this
      exact this ⟨h1, h2⟩
  · set reserved := ((db.reservations.filter fun r =>
        r.restaurant_id == rid && r.reservation_date == d && r.is_active).filter
        (reqOverlapB ts te)).map (fun r => r.table_id) with hreserved
    cases havail : (sortByCapacity (env.tables.filter fun t =>
        t.restaurant_id == rid && n ≤ t.capacity)).filter
        (fun t => !reserved.contains t.id) with
    | nil =>
      constructor
      · intro h
        simp only [Except.isOk, Except.toBool, Bool.false_eq_true] at h
      · rintro ⟨t, htm, h1, h2, hfree⟩
        exfalso
        rw [List.filter_eq_nil_iff] at havail
        have htms : t ∈ sortByCapacity (env.tables.filter fun t =>
            t.restaurant_id == rid && n ≤ t.capacity) := mem_suitable.mpr ⟨htm, h1, h2⟩
        have hnotfree := havail t htms
        have hc : reserved.contains t.id = true := by
          cases hcc : reserved.contains t.id with
          | true => rfl
          | false => exact absurd (by rw [hcc]; rfl) hnotfree
        rw [List.contains, List.elem_iff, hreserved, mem_reserved_ids] at hc
        rcases hc with ⟨r, hrm, hr1, hr2, hr3, hr4, hr5⟩
        exact hfree r hrm hr1 hr2 hr3 hr4 hr5
    | cons t0 rest =>
      constructor
      · intro _
        have ht0 : t0 ∈ (sortByCapacity (env.tables.filter fun t =>
            t.restaurant_id == rid && n ≤ t.capacity)).filter
            (fun t => !reserved.contains t.id) := by
          rw [havail]
          exact List.mem_cons_self t0 rest
        rw [List.mem_filter, mem_suitable] at ht0
        obtain ⟨⟨htm, h1, h2⟩, htf⟩ := ht0
        refine ⟨t0, htm, h1, h2, ?_⟩
        intro r hrm hr1 hr2 hr3 hr4 hr5
        rw [Bool.not_eq_eq_eq_not, Bool.not_true, ← Bool.not_eq_true,
            List.contains, List.elem_iff] at htf
        apply htf
        rw [hreserved, mem_reserved_ids]
        exact ⟨r, hrm, hr1, hr2, hr3, hr4, hr5⟩
      · intro _
        rfl

/-- Under zero-padded rendered request and stored times, the search-side
existence test holds exactly when some fitting table of the restaurant is
free of overlapping active reservations there on that date. -/
theorem is_time_available_true_iff (env : Env) (db : DB) (restaurant : Restaurant)
    (d n : Nat) {qs qe : PyTime} (hqs : ValidTime qs) (hqe : ValidTime qe)
    (hdb : RenderedTimes db) :
    is_time_available_for_reservation env db restaurant d
        (PyTime.render qs) (PyTime.render qe) n = true
    ↔ ∃ t ∈ env.tables, t.restaurant_id = restaurant.id ∧ n ≤ t.capacity ∧
        ∀ r ∈ db.reservations, r.restaurant_id = restaurant.id → r.reservation_date = d →
          r.is_active = true → reqOverlapB qs qe r = true → r.table_id ≠ t.id := by
  have hsearchconf : ∀ r ∈ db.reservations,
      (strLt (PyTime.render qs) r.reservation_end_time = true
        ∧ strLt r.reservation_start_time (PyTime.render qe) = true)
      ↔ reqOverlapB qs qe r = true := by
    intro r hr
    obtain ⟨a, b, hav, hbv, h1, h2⟩ := hdb r hr
    rw [h1, h2, strLt_render hqs hbv, strLt_render hav hqe,
        reqOverlapB, resWindow?_rendered hav hbv h1 h2]
    dsimp only
    rw [overlapB]
    dsimp only
    rw [Bool.and_eq_true]
  rw [is_time_available_for_reservation]
  dsimp only
  split_ifs with hemp
  · rw [List.isEmpty_iff, List.filter_eq_nil_iff] at hemp
    constructor
    · intro h
      exact absurd h (by simp)
    · rintro ⟨t, htm, h1, h2, _⟩
      exfalso
      have := hemp t htm
      rw [Bool.and_eq_true, beq_iff_eq, decide_eq_true_eq] at this
      exact this ⟨h1, h2⟩
  · rw [decide_eq_true_eq, gt_iff_lt, List.length_pos_iff_exists_mem]
    constructor
    · rintro ⟨t, ht⟩
      rw [List.mem_filter, List.mem_filter] at ht
      obtain ⟨⟨htm, htp⟩, htf⟩ := ht
      rw [Bool.and_eq_true, beq_iff_eq, decide_eq_true_eq] at htp
      refine ⟨t, htm, htp.1, htp.2, ?_⟩
      intro r hr hrA hrC hrF hrOv hrT
      rw [Bool.not_eq_eq_eq_not, Bool.not_true, ← Bool.not_eq_true,
          List.contains, List.elem_iff] at htf
      refine htf (List.mem_map.mpr ⟨r, List.mem_filter.mpr ⟨hr, ?_⟩, hrT⟩)
      rw [Bool.and_eq_true, Bool.and_eq_true, Bool.and_eq_true, Bool.and_eq_true,
          Bool.and_eq_true]
      obtain ⟨hD, hE⟩ := (hsearchconf r hr).mpr hrOv
      refine ⟨⟨⟨⟨⟨by rw [beq_iff_eq]; exact hrA, ?_⟩,
        by rw [beq_iff_eq]; exact hrC⟩, hD⟩, hE⟩, hrF⟩
      rw [hrT, List.contains, List.elem_iff]
      refine List.mem_map.mpr ⟨t, List.mem_filter.mpr ⟨htm, ?_⟩, rfl⟩
      rw [Bool.and_eq_true, beq_iff_eq, decide_eq_true_eq]
      exact ⟨htp.1, htp.2⟩
    · rintro ⟨t, htm, h1, h2, hfree⟩
      refine ⟨t, ?_⟩
      rw [List.mem_filter, List.mem_filter]
      refine ⟨⟨htm, ?_⟩, ?_⟩
      · rw [Bool.and_eq_true, beq_iff_eq, decide_eq_true_eq]
        exact ⟨h1, h2⟩
      · rw [Bool.not_eq_eq_eq_not, Bool.not_true, ← Bool.not_eq_true,
            List.contains, List.elem_iff]
        intro hc
        rw [List.mem_map] at hc
        obtain ⟨r, hrf, hrid⟩ := hc
        rw [List.mem_filter] at hrf
        obtain ⟨hrm, hrc⟩ := hrf
        rw [Bool.and_eq_true, Bool.and_eq_true, Bool.and_eq_true, Bool.and_eq_true,
            Bool.and_eq_true] at hrc
        obtain ⟨⟨⟨⟨⟨hA, _⟩, hC⟩, hD⟩, hE⟩, hF⟩ := hrc
        rw [beq_iff_eq] at hA hC
        exact hfree r hrm hA hC hF ((hsearchconf r hrm).mp ⟨hD, hE⟩) hrid

/-- C9: for every restaurant, date, party size and zero-padded HH:MM
request window, when every stored reservation time is a zero-padded HH:MM
rendering, the search-side `is_time_available_for_reservation` (which
compares the stored strings lexicographically at the query level) returns
true exactly when the booking-side `check_table_availability` (which
parses the strings into times of day) finds an available table for the
same inputs. -/
theorem claim_C9_search_booking_agreement (env : Env) (db : DB)
    (restaurant : Restaurant) (now : PyTime) (d n : Nat) (qs qe : PyTime)
    (hqs : ValidTime qs) (hqe : ValidTime qe) (hdb : RenderedTimes db) :
    is_time_available_for_reservation env db restaurant d
        (PyTime.render qs) (PyTime.render qe) n = true
      ↔ (check_table_availability env db now restaurant.id n d
          (PyTime.render qs) (some (PyTime.render qe))).isOk = true := by
  rw [is_time_available_true_iff env db restaurant d n hqs hqe hdb,
      check_table_availability_isOk env db now restaurant.id n d _ _
        (render_isEmpty hqe) (parse_render hqs) (parse_render hqe)]

/-- Witness for C9: at a concrete restaurant, window and store the search
and the allocator agree. -/
theorem claim_C9_search_booking_agreement_witness :
    (ValidTime ⟨18, 0⟩ ∧ ValidTime ⟨20, 0⟩ ∧ RenderedTimes emptyDB)
    ∧ (is_time_available_for_reservation wEnv emptyDB
          ⟨10, ['R', '1'], true, some ⟨⟨8, 0⟩, ⟨20, 0⟩⟩⟩ 5
          (PyTime.render ⟨18, 0⟩) (PyTime.render ⟨20, 0⟩) 2 = true
      ↔ (check_table_availability wEnv emptyDB ⟨0, 0⟩
          (Restaurant.id ⟨10, ['R', '1'], true, some ⟨⟨8, 0⟩, ⟨20, 0⟩⟩⟩) 2 5
          (PyTime.render ⟨18, 0⟩) (some (PyTime.render ⟨20, 0⟩))).isOk = true) :=
  ⟨⟨validTime_mk (by decide) (by decide), validTime_mk (by decide) (by decide),
    fun r hr => absurd hr (List.not_mem_nil r)⟩,
   claim_C9_search_booking_agreement wEnv emptyDB
     ⟨10, ['R', '1'], true, some ⟨⟨8, 0⟩, ⟨20, 0⟩⟩⟩ ⟨0, 0⟩ 5 2 ⟨18, 0⟩ ⟨20, 0⟩
     (validTime_mk (by decide) (by decide)) (validTime_mk (by decide) (by decide))
     (fun r hr => absurd hr (List.not_mem_nil r))⟩

end Reservations

